import Mathlib

/-!
# PyPML — Parking State Engine: shallow embedding and verification

This file embeds the Python Parking Monitor Library (`src/pypml/pypml.py`) in
Lean 4 and proves properties of the embedded code.

Modelling conventions:
* Python `dict`s (string-keyed, insertion-ordered, unique keys) are association
  lists `List (String × α)`; assignment `d[k] = v` replaces the value in place
  when the key exists and appends otherwise (`alSet`); reading `d[k]` is
  `alGet?` / `alGet` (the latter raising `KeyError` when absent, as in Python).
* Python `set`s of vehicle ids are `Finset String`.
* Python floats (simulation times, route travel times, end positions) are `Rat`.
* A Python function that may `raise` is embedded in `Except PErr`; a *mutating*
  method additionally returns the post-state, because in Python an exception
  raised after a mutation leaves the mutation in place.
* The TraCI simulation/routing oracle is an explicit input (`Oracle`,
  `FindRoute`): its answers are parameters of the step functions.
* The Gaussian uncertainty draw `round(random.normalvariate(mu, sigma))` is
  modelled by an externally supplied integer `draw`; the code applies it only
  when `with_uncertainty` is set.
-/

/-- The error outcomes of the embedded code, one constructor per kind of
`raise` in the source (plus Python's own `KeyError`/`IndexError`):
`NotFound` = "Parking ... does not exist.", `NotConfigured` = "vClass ... not
initialized in parking ..." / "subscriptions ... cannot be set without setting
capacity_by_class", `NotInitialized` = "Estimated travel time structure for
parkings is not initialized.", `InvariantViolation` = the validator raises,
`InconsistentState` = "Vehicle ... cannot be removed from area ...". -/
inductive PErr where
  | NotFound
  | NotConfigured
  | NotInitialized
  | InvariantViolation
  | InconsistentState
  | KeyError
  | IndexError
deriving DecidableEq

/-- Python dict read `d[k]` as an `Option`. -/
def alGet? {α : Type} : List (String × α) → String → Option α
  | [], _ => none
  | kv :: rest, k => if kv.1 = k then some kv.2 else alGet? rest k

/-- Python dict read `d[k]`, raising `KeyError` when the key is absent. -/
def alGet {α : Type} (l : List (String × α)) (k : String) : Except PErr α :=
  match alGet? l k with
  | some v => Except.ok v
  | none => Except.error PErr.KeyError

/-- Python dict write `d[k] = v`: replace in place if present, append if new. -/
def alSet {α : Type} : List (String × α) → String → α → List (String × α)
  | [], k, v => [(k, v)]
  | kv :: rest, k, v => if kv.1 = k then (k, v) :: rest else kv :: alSet rest k v

/-- The key list of a dict. -/
def alKeys {α : Type} (l : List (String × α)) : List String := l.map Prod.fst

/-- Python `set(d.keys())`: the key set of a dict. -/
def alKeysFinset {α : Type} (l : List (String × α)) : Finset String :=
  (alKeys l).toFinset

/-- Python `collections.defaultdict(list)` read: missing keys behave as `[]`. -/
def dGet {α : Type} (l : List (String × List α)) (k : String) : List α :=
  (alGet? l k).getD []

/-- Python `defaultdict(list)`: `d[k].append(v)`. -/
def dAppend {α : Type} (l : List (String × List α)) (k : String) (v : α) :
    List (String × List α) :=
  alSet l k (dGet l k ++ [v])

/-- Python `set.add` on a set collected into an ordered list (used for the
`_to_validate` set, whose iteration order does not affect whether the
validation pass completes). -/
def insertUniq (l : List String) (x : String) : List String :=
  if x ∈ l then l else l ++ [x]

/-- A TraCI stop record, the 6-tuple returned by `vehicle.getNextStops`:
`(lane, endPos, stoppingPlace, stopFlags, duration, until)`.  The source reads
components 2 (`stoppingPlace`) and 3 (`stopFlags`). -/
structure Stop where
  lane : String
  endPos : Rat
  stoppingPlace : String
  stopFlags : Nat
  duration : Rat
  until_ : Rat
deriving DecidableEq

/-- One entry of `_vehicles_db` (the dict built in `_monitor_vehicles`).
The optional `final_stop_arrival` key is `none` while the key is absent. -/
structure Vehicle where
  id : String
  departure : Rat
  edge : String
  stops : List Stop
  history : List (List Stop)
  vClass : String
  passengers : List String
  arrived : Option Rat
  final_stop_arrival : Option Rat
deriving DecidableEq

/-- One entry of `_parking_db`.  The `sumo` sub-dict is kept as the three
attributes the code reads (`id`, `lane`, `endPos`); `uncertainty` is its two
entries `mu`, `sigma`. -/
structure Parking where
  sumo_id : String
  sumo_lane : String
  sumo_endPos : Rat
  total_capacity : Int
  total_occupancy : Int
  occupancy_series : List (Int × Rat)
  capacity_by_class : List (String × Int)
  occupancy_by_class : List (String × Finset String)
  projections_by_class : List (String × Finset String)
  subscriptions_by_class : List (String × Int × Finset String)
  uncertainty_mu : Rat
  uncertainty_sigma : Rat
deriving DecidableEq

/-- One entry of `_routers_db`: id, governed edges, and the interval list
`(end-time, [(parking id, visible flag)])` built by
`_load_parkings_and_routers`. -/
structure Rerouter where
  id : String
  edges : List String
  intervals : List (Int × List (String × Bool))
deriving DecidableEq

/-- The record yielded by `get_rerouter_iterator`.  `info` is the local
variable `current`, which is `None` (here `none`) when never assigned. -/
structure RerouterInfo where
  id : String
  edges : List String
  info : Option (List (String × Bool))
deriving DecidableEq

/-- The mutable state of a `ParkingMonitor` instance.  The `_traci_*` snapshot
caches that merely mirror the last oracle answers verbatim
(`_traci_departed_list`, `_traci_arrived_list`, `_traci_vehicle_subscription`,
`_traci_simulation_subscriptions`) are omitted; the two parking-stop lists are
kept because the ending list is consumed with one step of latency. -/
structure Monitor where
  parking_db : List (String × Parking)
  routers_db : List (String × Rerouter)
  vehicles_db : List (String × Vehicle)
  passengers_db : Finset String
  vclasses : Finset String
  only_parkings : Bool
  blacklisted_edges_pairs : List (String × List String)
  static_parking_travel_time : List (String × List (Rat × String))
  starting_stop_subscriptions : List String
  ending_stop_subscriptions : List String
deriving DecidableEq

/-- Replace (or register) one parking record. -/
def setParking (m : Monitor) (pid : String) (p : Parking) : Monitor :=
  { m with parking_db := alSet m.parking_db pid p }

/-- One vehicle's batch snapshot from
`traci.vehicle.getAllSubscriptionResults()`: current road id, next-stops list,
current passenger id list. -/
structure SubData where
  road : String
  stops : List Stop
  persons : List String
deriving DecidableEq

/-- The per-step answers of the simulation oracle (TraCI). -/
structure Oracle where
  time : Rat
  departed : List String
  arrived : List String
  vehicleClass : String → String
  nextStops : String → List Stop
  personIDList : String → List String
  vehSubs : List (String × SubData)
  occupancyOf : String → Int
  startingList : List String
  endingList : List String

/-- The answer of `traci.simulation.findRoute`. -/
structure RouteResult where
  edges : List String
  travelTime : Rat
deriving DecidableEq

/-- The routing oracle: `none` models a `TraCIException`. -/
abbrev FindRoute := String → String → Option RouteResult

/-- Python `is_parking_area(flags)`: bit 128 of the stop flags. -/
def is_parking_area (flags : Nat) : Bool :=
  Nat.land flags 128 = 128

/-- Python `_is_same_destinations`: same length and same stopping place
(component 2) at every position. -/
def is_same_destinations (a_stops b_stops : List Stop) : Bool :=
  a_stops.length = b_stops.length ∧
    (a_stops.zip b_stops).all fun sp => sp.1.stoppingPlace = sp.2.stoppingPlace

/-- Python `_get_parking_area_from_vehicle`: the stopping place of the first stop of
the last history entry (`history[-1][0][2]`); `None` when the history is
empty; `KeyError` when the vehicle is unknown, `IndexError` when the last
history entry is an empty stop list. -/
def get_parking_area_from_vehicle (m : Monitor) (vehicle : String) :
    Except PErr (Option String) :=
  match alGet? m.vehicles_db vehicle with
  | none => Except.error PErr.KeyError
  | some veh =>
    match veh.history.getLast? with
    | none => Except.ok none
    | some laststops =>
      match laststops.head? with
      | none => Except.error PErr.IndexError
      | some s => Except.ok (some s.stoppingPlace)

example : is_parking_area 128 = true := by decide
example : is_parking_area 131 = true := by decide
example : is_parking_area 64 = false := by decide

/-- Python `get_parking`: deep copy of the parking area with the given ID, or `None`
if not existent.  The function never raises; the `Except` layer records that
uniformly with the other API calls. -/
def get_parking (m : Monitor) (parking : String) : Except PErr (Option Parking) :=
  Except.ok (alGet? m.parking_db parking)

/-- Dictionary access `parking_record[key]` restricted to the two keys holding
a class-to-vehicle-set mapping.  The keys assigned to a parking record are
exactly `sumo`, `total_capacity`, `total_occupancy`, `occupancy_series`,
`occupancy_by_class`, `projections_by_class`, `capacity_by_class`,
`subscriptions_by_class` and `uncertainty` (see `__init__`); any other key
raises `KeyError`. -/
def parkingGetSetMap (p : Parking) (key : String) :
    Except PErr (List (String × Finset String)) :=
  if key = "projections_by_class" then Except.ok p.projections_by_class
  else if key = "occupancy_by_class" then Except.ok p.occupancy_by_class
  else Except.error PErr.KeyError

/-- Python `get_parking_projections`: raises `NotFound` for an unknown parking id;
for a known one the source evaluates
`self._parking_db[parking]['projection_by_class']` — note the key literal,
which is not the stored key `projections_by_class`. -/
def get_parking_projections (m : Monitor) (parking : String) :
    Except PErr (List (String × Finset String)) :=
  match alGet? m.parking_db parking with
  | some p => parkingGetSetMap p "projection_by_class"
  | none => Except.error PErr.NotFound

/-- Python `_validate_parking_capacity`: key set must equal the configured
`vclasses`, and the summed capacities must equal `total_capacity`. -/
def validate_parking_capacity (m : Monitor) (pid : String) : Except PErr Unit :=
  match alGet? m.parking_db pid with
  | none => Except.error PErr.KeyError
  | some p =>
    if alKeysFinset p.capacity_by_class ≠ m.vclasses then
      Except.error PErr.InvariantViolation
    else if (p.capacity_by_class.map Prod.snd).sum ≠ p.total_capacity then
      Except.error PErr.InvariantViolation
    else Except.ok ()

/-- The loop of `_validate_parking_occupancy`: accumulates
`total += len(value)` over `occupancy_by_class`, and when `capacity_by_class`
is non-empty reads `capacity_by_class[v_class]` (`KeyError` when absent) and
raises when a class's occupancy exceeds its capacity. -/
def validate_occupancy_loop (cap : List (String × Int)) :
    List (String × Finset String) → Int → Except PErr Int
  | [], total => Except.ok total
  | kv :: rest, total =>
    if cap ≠ [] then
      match alGet? cap kv.1 with
      | none => Except.error PErr.KeyError
      | some c =>
        if (kv.2.card : Int) > c then Except.error PErr.InvariantViolation
        else validate_occupancy_loop cap rest (total + kv.2.card)
    else validate_occupancy_loop cap rest (total + kv.2.card)

/-- Python `_validate_parking_occupancy`: key set must equal `vclasses`, per-class
occupancy must not exceed per-class capacity (when capacities are set), and
the summed occupancy must equal `total_occupancy`. -/
def validate_parking_occupancy (m : Monitor) (pid : String) : Except PErr Unit :=
  match alGet? m.parking_db pid with
  | none => Except.error PErr.KeyError
  | some p =>
    if alKeysFinset p.occupancy_by_class ≠ m.vclasses then
      Except.error PErr.InvariantViolation
    else
      match validate_occupancy_loop p.capacity_by_class p.occupancy_by_class 0 with
      | Except.error e => Except.error e
      | Except.ok total =>
        if total ≠ p.total_occupancy then Except.error PErr.InvariantViolation
        else Except.ok ()

/-- The loop of `_validate_parking_subscriptions`: each class's reserved count
(`value[0]`) must not exceed that class's capacity. -/
def validate_subs_loop (cap : List (String × Int)) :
    List (String × Int × Finset String) → Except PErr Unit
  | [] => Except.ok ()
  | kv :: rest =>
    match alGet? cap kv.1 with
    | none => Except.error PErr.KeyError
    | some c =>
      if kv.2.1 > c then Except.error PErr.InvariantViolation
      else validate_subs_loop cap rest

/-- Python `_validate_parking_subscriptions`: requires `capacity_by_class` to be
non-empty, the key set to equal `vclasses`, and per-class reserved counts to
fit the capacities. -/
def validate_parking_subscriptions (m : Monitor) (pid : String) : Except PErr Unit :=
  match alGet? m.parking_db pid with
  | none => Except.error PErr.KeyError
  | some p =>
    if p.capacity_by_class = [] then Except.error PErr.NotConfigured
    else if alKeysFinset p.subscriptions_by_class ≠ m.vclasses then
      Except.error PErr.InvariantViolation
    else validate_subs_loop p.capacity_by_class p.subscriptions_by_class

/-- Python `set_parking_capacity_vclass`: `NotFound` for unknown ids; otherwise the
mapping is **replaced first** (`parking['capacity_by_class'] = deepcopy(...)`)
and `_validate_parking_capacity` runs afterwards, so a raised validation error
leaves the new mapping in place.  The pair is (outcome, post-state). -/
def set_parking_capacity_vclass (m : Monitor) (pid : String)
    (capacities : List (String × Int)) : Except PErr Unit × Monitor :=
  match alGet? m.parking_db pid with
  | some p =>
    let m' := setParking m pid { p with capacity_by_class := capacities }
    (validate_parking_capacity m' pid, m')
  | none => (Except.error PErr.NotFound, m)

/-- Python `set_parking_subscriptions`: same set-then-validate shape as the capacity
setter, with `_validate_parking_subscriptions`. -/
def set_parking_subscriptions (m : Monitor) (pid : String)
    (subscriptions : List (String × Int × Finset String)) : Except PErr Unit × Monitor :=
  match alGet? m.parking_db pid with
  | some p =>
    let m' := setParking m pid { p with subscriptions_by_class := subscriptions }
    (validate_parking_subscriptions m' pid, m')
  | none => (Except.error PErr.NotFound, m)

/-- Python `subscribe_vehicle_to_parking`: `NotFound` for unknown parkings,
`NotConfigured` ("vClass ... not initialized") when the class has no
subscription entry; `False` without mutation when the vehicle is already
subscribed or the reservation set is full (`len(vehicles) < _capacity`
fails); otherwise the vehicle is added and `True` returned. -/
def subscribe_vehicle_to_parking (m : Monitor) (parking vclass vehicle : String) :
    Except PErr Bool × Monitor :=
  match alGet? m.parking_db parking with
  | none => (Except.error PErr.NotFound, m)
  | some p =>
    match alGet? p.subscriptions_by_class vclass with
    | none => (Except.error PErr.NotConfigured, m)
    | some cv =>
      if vehicle ∈ cv.2 then (Except.ok false, m)
      else if (cv.2.card : Int) < cv.1 then
        (Except.ok true,
         setParking m parking
           { p with subscriptions_by_class :=
               alSet p.subscriptions_by_class vclass (cv.1, insert vehicle cv.2) })
      else (Except.ok false, m)

/-- Python `remove_subscribed_vehicle`: `NotFound` / `NotConfigured` as for
subscribing; `True` and removal when the vehicle is present, `False` without
mutation otherwise. -/
def remove_subscribed_vehicle (m : Monitor) (parking vclass vehicle : String) :
    Except PErr Bool × Monitor :=
  match alGet? m.parking_db parking with
  | none => (Except.error PErr.NotFound, m)
  | some p =>
    match alGet? p.subscriptions_by_class vclass with
    | none => (Except.error PErr.NotConfigured, m)
    | some cv =>
      if vehicle ∈ cv.2 then
        (Except.ok true,
         setParking m parking
           { p with subscriptions_by_class :=
               alSet p.subscriptions_by_class vclass (cv.1, cv.2.erase vehicle) })
      else (Except.ok false, m)

/-- Python `get_free_places` returns either a single integer (no per-class split, or
a configured class requested) or the whole per-class dict. -/
inductive FreePlacesResult where
  | single (n : Int)
  | byClass (d : List (String × Int))
deriving DecidableEq

/-- Projections loop of `get_free_places`:
`total_projections += len(vehicles); occupancy[key] = occupancy[key] | vehicles`
(the read raises `KeyError` for a key absent from `occupancy`). -/
def projLoop : List (String × Finset String) → List (String × Finset String) → Int →
    Except PErr (Int × List (String × Finset String))
  | [], occ, tot => Except.ok (tot, occ)
  | kv :: rest, occ, tot =>
    match alGet? occ kv.1 with
    | none => Except.error PErr.KeyError
    | some cur => projLoop rest (alSet occ kv.1 (cur ∪ kv.2)) (tot + kv.2.card)

/-- Subscriptions loop of `get_free_places`: builds
`subscriptions[key] = num - len(veh)`, merges the reserved vehicles into the
occupancy view, and accumulates `total_subscriptions` and the (otherwise
unused) `partial_subscriptions` sum. -/
def subLoop : List (String × Int × Finset String) → List (String × Finset String) →
    Int → Int → List (String × Int) →
    Except PErr (Int × Int × List (String × Int) × List (String × Finset String))
  | [], occ, ts, ps, sl => Except.ok (ts, ps, sl, occ)
  | kv :: rest, occ, ts, ps, sl =>
    let slot := kv.2.1 - (kv.2.2.card : Int)
    let sl' := alSet sl kv.1 slot
    match alGet? occ kv.1 with
    | none => Except.error PErr.KeyError
    | some cur => subLoop rest (alSet occ kv.1 (cur ∪ kv.2.2)) (ts + kv.2.1) (ps + slot) sl'

/-- Per-class capacity loop of `get_free_places`: for each occupancy key,
`current_capacity[key] += error; current_capacity[key] -= len(vehicles);`
and, when subscriptions are included and the subscriptions dict is non-empty,
`current_capacity[key] -= subscriptions[key]` (each dict read can raise
`KeyError`). -/
def capLoop : List (String × Finset String) → List (String × Int) → Int → Bool →
    List (String × Int) → Except PErr (List (String × Int))
  | [], cc, _, _, _ => Except.ok cc
  | kv :: rest, cc, err, withSubs, subs =>
    match alGet? cc kv.1 with
    | none => Except.error PErr.KeyError
    | some cap =>
      let v := cap + err - (kv.2.card : Int)
      if withSubs ∧ subs ≠ [] then
        match alGet? subs kv.1 with
        | none => Except.error PErr.KeyError
        | some s => capLoop rest (alSet cc kv.1 (v - s)) err withSubs subs
      else capLoop rest (alSet cc kv.1 v) err withSubs subs

/-- Python `get_free_places(parking, with_uncertainty, vclass, with_projections,
with_subscriptions)`.  `draw` is the externally drawn integer
`round(random.normalvariate(mu, sigma))`; the code uses it only when
`with_uncertainty` is set (`error`). -/
def get_free_places (m : Monitor) (parking : String) (with_uncertainty : Bool)
    (draw : Int) (vclass : Option String) (with_projections with_subscriptions : Bool) :
    Except PErr FreePlacesResult :=
  match alGet? m.parking_db parking with
  | none => Except.error PErr.NotFound
  | some p =>
    let error : Int := if with_uncertainty then draw else 0
    let current_capacity := p.capacity_by_class
    let total_occupancy := p.total_occupancy
    let occupancy0 := p.occupancy_by_class
    match (if with_projections then projLoop p.projections_by_class occupancy0 0
           else Except.ok (0, occupancy0)) with
    | Except.error e => Except.error e
    | Except.ok (total_projections, occupancy1) =>
      match (if with_subscriptions then subLoop p.subscriptions_by_class occupancy1 0 0 []
             else Except.ok (0, 0, [], occupancy1)) with
      | Except.error e => Except.error e
      | Except.ok (total_subscriptions, _partial_subs, subscriptions, occupancy2) =>
        if current_capacity ≠ [] then
          match capLoop occupancy2 current_capacity error with_subscriptions subscriptions with
          | Except.error e => Except.error e
          | Except.ok cc =>
            match vclass with
            | some c =>
              match alGet? cc c with
              | some v => Except.ok (FreePlacesResult.single v)
              | none => Except.ok (FreePlacesResult.byClass cc)
            | none => Except.ok (FreePlacesResult.byClass cc)
        else
          Except.ok (FreePlacesResult.single
            (p.total_capacity - total_occupancy - total_projections -
              total_subscriptions + error))

/-- The edge of a lane id: `lane.split('_')[0]`. -/
def edgeOfLane (lane : String) : String := (lane.splitOn "_").headD ""

/-- The `(pid, edge, end_pos)` anchor triples collected at the start of
`compute_parking_travel_time`. -/
def parkingAnchors (m : Monitor) : List (String × String × Rat) :=
  m.parking_db.map fun kv => (kv.2.sumo_id, edgeOfLane kv.2.sumo_lane, kv.2.sumo_endPos)

/-- The comparison used by `distances.sort()`: Python tuples `(cost, pid)`
compare lexicographically. -/
def pairLe (a b : Rat × String) : Prop :=
  a.1 < b.1 ∨ (a.1 = b.1 ∧ a.2 ≤ b.2)

instance : DecidableRel pairLe := fun a b => by
  unfold pairLe
  infer_instance

instance : IsTotal (Rat × String) pairLe where
  total a b := by
    rcases lt_trichotomy a.1 b.1 with h | h | h
    · exact Or.inl (Or.inl h)
    · rcases le_total a.2 b.2 with h2 | h2
      · exact Or.inl (Or.inr ⟨h, h2⟩)
      · exact Or.inr (Or.inr ⟨h.symm, h2⟩)
    · exact Or.inr (Or.inl h)

instance : IsTrans (Rat × String) pairLe where
  trans a b c hab hbc := by
    rcases hab with h1 | ⟨e1, l1⟩
    · rcases hbc with h2 | ⟨e2, _⟩
      · exact Or.inl (h1.trans h2)
      · exact Or.inl (e2 ▸ h1)
    · rcases hbc with h2 | ⟨e2, l2⟩
      · exact Or.inl (e1 ▸ h2)
      · exact Or.inr ⟨e1.trans e2, l1.trans l2⟩

/-- The body of the nested pair loop of `compute_parking_travel_time`,
threading the accumulating `_static_parking_travel_time` and the persistent
`_blacklisted_edges_pairs`.  Notes: `findRoute` failing (a `TraCIException`)
blacklists the edge pair; `if cost:` is a Python truthiness test, so a route
with travel time `0.0` is *not* recorded; reading
`_blacklisted_edges_pairs[from_edge]` on a `defaultdict` creates an empty
entry, which is observationally irrelevant (the blacklist's truthiness is
never consulted), so it is modelled by the pure default read `dGet`. -/
def routePair (fr : FindRoute)
    (st : List (String × List (Rat × String)) × List (String × List String))
    (a b : String × String × Rat) :
    List (String × List (Rat × String)) × List (String × List String) :=
  if a.1 = b.1 then st
  else if a.2.1 = b.2.1 ∧ b.2.2 ≤ a.2.2 then st
  else if b.2.1 ∈ dGet st.2 a.2.1 then st
  else
    match fr a.2.1 b.2.1 with
    | none => (st.1, dAppend st.2 a.2.1 b.2.1)
    | some route =>
      if route.edges ≠ [] ∧ route.travelTime ≠ 0 then
        (dAppend st.1 a.1 (route.travelTime, b.1), st.2)
      else st

/-- Python `compute_parking_travel_time`: rebuilds `_static_parking_travel_time`
from scratch (the blacklist persists across builds), then sorts every
per-origin list ascending. -/
def compute_parking_travel_time (m : Monitor) (fr : FindRoute) : Monitor :=
  let parkings := parkingAnchors m
  let st := parkings.foldl
    (fun acc a => parkings.foldl (fun acc2 b => routePair fr acc2 a b) acc)
    ([], m.blacklisted_edges_pairs)
  { m with
    static_parking_travel_time := st.1.map fun kv => (kv.1, List.insertionSort pairLe kv.2),
    blacklisted_edges_pairs := st.2 }

/-- The truncation loop of `get_closest_parkings`:
`if num and len(parkings) == num: break` — `num=None` and `num=0` are falsy
and a negative `num` never equals the growing length, so truncation happens
only for positive `num`. -/
def pyTruncate (num : Option Int) (l : List (Rat × String)) : List (Rat × String) :=
  match num with
  | none => l
  | some k => if k ≤ 0 then l else l.take k.toNat

/-- Python `get_closest_parkings(parking, num)`: raises `NotInitialized` when
`_static_parking_travel_time` is empty; otherwise returns the (possibly
truncated) stored list for the parking, `[]` when the parking has no stored
distances. -/
def get_closest_parkings (m : Monitor) (parking : String) (num : Option Int) :
    Except PErr (List (Rat × String)) :=
  if m.static_parking_travel_time = [] then Except.error PErr.NotInitialized
  else
    Except.ok
      (match alGet? m.static_parking_travel_time parking with
       | some items => pyTruncate num items
       | none => [])

/-- The interval list of one rerouter as `_load_parkings_and_routers` builds
it from the raw XML attributes: the end time is `int(attrib['end']) * 1000`
("interval in milliseconds"), and an offered area is visible exactly when its
`visible` attribute is present and equal to `"true"`. -/
def load_rerouter_intervals (raw : List (Int × List (String × Option String))) :
    List (Int × List (String × Bool)) :=
  raw.map fun ep => (ep.1 * 1000, ep.2.map fun av => (av.1, av.2 = some "true"))

/-- Python truthiness of the `current` local in `get_rerouter_iterator`:
`None` and the empty list are falsy. -/
def optListTruthy {α : Type} : Option (List α) → Bool
  | none => false
  | some l => !l.isEmpty

/-- The interval scan of `get_rerouter_iterator`:
`if not current: current = parkings` then `if step <= end: current = parkings`
`else: break`, started with `current = None`. -/
def rerouterCurrent (step : Rat) : List (Int × List (String × Bool)) →
    Option (List (String × Bool)) → Option (List (String × Bool))
  | [], cur => cur
  | ep :: rest, cur =>
    let cur1 := if optListTruthy cur then cur else some ep.2
    if step ≤ (ep.1 : Rat) then rerouterCurrent step rest (some ep.2) else cur1

/-- Python `get_rerouter_iterator(step)`: yields, per rerouter, its id, edges and the
`current` interval information selected by the scan above. -/
def get_rerouter_iterator (m : Monitor) (step : Rat) : List RerouterInfo :=
  m.routers_db.map fun kv =>
    { id := kv.2.id, edges := kv.2.edges, info := rerouterCurrent step kv.2.intervals none }

/-- Python `parking_db[area]['projections_by_class'][v_class].add(vehicle)` —
`KeyError` when the area or class is unknown. -/
def addProjection (m : Monitor) (area vclass vehicle : String) : Except PErr Monitor :=
  match alGet? m.parking_db area with
  | none => Except.error PErr.KeyError
  | some p =>
    match alGet? p.projections_by_class vclass with
    | none => Except.error PErr.KeyError
    | some s =>
      Except.ok (setParking m area
        { p with projections_by_class := alSet p.projections_by_class vclass (insert vehicle s) })

/-- Python `parking_db[area]['projections_by_class'][v_class].remove(vehicle)` —
Python's `set.remove` additionally raises `KeyError` when the vehicle is not
in the set. -/
def removeProjection (m : Monitor) (area vclass vehicle : String) : Except PErr Monitor :=
  match alGet? m.parking_db area with
  | none => Except.error PErr.KeyError
  | some p =>
    match alGet? p.projections_by_class vclass with
    | none => Except.error PErr.KeyError
    | some s =>
      if vehicle ∈ s then
        Except.ok (setParking m area
          { p with projections_by_class := alSet p.projections_by_class vclass (s.erase vehicle) })
      else Except.error PErr.KeyError

/-- Fold `addProjection` over a list of areas (a Python `set` of stop places;
the resulting state does not depend on the iteration order). -/
def addProjections (m : Monitor) (areas : List String) (vclass vehicle : String) :
    Except PErr Monitor :=
  match areas with
  | [] => Except.ok m
  | a :: rest =>
    match addProjection m a vclass vehicle with
    | Except.error e => Except.error e
    | Except.ok m' => addProjections m' rest vclass vehicle

/-- Fold `removeProjection` over a list of areas. -/
def removeProjections (m : Monitor) (areas : List String) (vclass vehicle : String) :
    Except PErr Monitor :=
  match areas with
  | [] => Except.ok m
  | a :: rest =>
    match removeProjection m a vclass vehicle with
    | Except.error e => Except.error e
    | Except.ok m' => removeProjections m' rest vclass vehicle

/-- The departed-vehicles loop of `_monitor_vehicles`: class filtering under
`only_parkings`, stop filtering through `is_parking_area`, registration of
the vehicle record, passenger accumulation, and projection updates for the
new stop places (the `vehicle.subscribe` call is oracle-side). -/
def monitorDeparted (o : Oracle) (step : Rat) :
    List String → Monitor → Except PErr Monitor
  | [], m => Except.ok m
  | v :: rest, m =>
    let v_class := o.vehicleClass v
    if m.only_parkings ∧ (v_class = "bus" ∨ v_class = "rail") then
      monitorDeparted o step rest m
    else
      let stops := o.nextStops v
      let current_stops := stops.filter fun s => is_parking_area s.stopFlags
      let new_stops := (current_stops.map Stop.stoppingPlace).dedup
      if m.only_parkings ∧ current_stops = [] then monitorDeparted o step rest m
      else
        let passengers := o.personIDList v
        let m1 := { m with passengers_db := m.passengers_db ∪ passengers.toFinset }
        let newVeh : Vehicle :=
          { id := v, departure := step, edge := "", stops := current_stops, history := [],
            vClass := v_class, passengers := passengers, arrived := none,
            final_stop_arrival := none }
        let m2 := { m1 with vehicles_db := alSet m1.vehicles_db v newVeh }
        match addProjections m2 new_stops v_class v with
        | Except.error e => Except.error e
        | Except.ok m3 => monitorDeparted o step rest m3

/-- The arrived-vehicles loop of `_monitor_vehicles`: stamp the arrival step
of tracked vehicles. -/
def monitorArrived (step : Rat) : List String → Monitor → Monitor
  | [], m => m
  | v :: rest, m =>
    match alGet? m.vehicles_db v with
    | some veh =>
      monitorArrived step rest
        { m with vehicles_db := alSet m.vehicles_db v { veh with arrived := some step } }
    | none => monitorArrived step rest m

/-- Python `_monitor_vehicles(step)`. -/
def monitor_vehicles (o : Oracle) (step : Rat) (m : Monitor) : Except PErr Monitor :=
  match monitorDeparted o step o.departed m with
  | Except.error e => Except.error e
  | Except.ok m' => Except.ok (monitorArrived step o.arrived m')

/-- The loop of `_update_vehicles_db` over the vehicle subscription snapshot:
unconditional edge/passenger refresh, stop-change detection through
`_is_same_destinations`, projection diff over old/new stop places, history
append, and the once-only `final_stop_arrival` stamp (the `unsubscribe` call
is oracle-side). -/
def updateVehiclesLoop (step : Rat) : List (String × SubData) → Monitor → Except PErr Monitor
  | [], m => Except.ok m
  | vd :: rest, m =>
    match alGet? m.vehicles_db vd.1 with
    | none => Except.error PErr.KeyError
    | some veh =>
      let veh1 := { veh with edge := vd.2.road, passengers := vd.2.persons }
      let m1 := { m with vehicles_db := alSet m.vehicles_db vd.1 veh1,
                         passengers_db := m.passengers_db ∪ vd.2.persons.toFinset }
      let current_stops := vd.2.stops.filter fun s => is_parking_area s.stopFlags
      if is_same_destinations veh.stops current_stops then updateVehiclesLoop step rest m1
      else
        let new_stops := (current_stops.map Stop.stoppingPlace).dedup
        let old_stops := (veh.stops.map Stop.stoppingPlace).dedup
        match removeProjections m1 (old_stops.filter (· ∉ new_stops)) veh.vClass vd.1 with
        | Except.error e => Except.error e
        | Except.ok m2 =>
          match addProjections m2 (new_stops.filter (· ∉ old_stops)) veh.vClass vd.1 with
          | Except.error e => Except.error e
          | Except.ok m3 =>
            let veh2 := { veh1 with
              history := veh1.history ++ [veh.stops],
              stops := current_stops,
              final_stop_arrival :=
                if veh.final_stop_arrival = none ∧ current_stops = [] then some step
                else veh.final_stop_arrival }
            updateVehiclesLoop step rest { m3 with vehicles_db := alSet m3.vehicles_db vd.1 veh2 }

/-- Python `_update_vehicles_db(step)`. -/
def update_vehicles_db (o : Oracle) (step : Rat) (m : Monitor) : Except PErr Monitor :=
  updateVehiclesLoop step o.vehSubs m

/-- The per-parking body of `_check_occupancy`: re-read the authoritative
occupancy counter; on change, append an `(occupancy, step)` sample and update
`total_occupancy`. -/
def check_occupancy_one (o : Oracle) (step : Rat) (pid : String) (p : Parking) : Parking :=
  let occ := o.occupancyOf pid
  if p.total_occupancy ≠ occ then
    { p with occupancy_series := p.occupancy_series ++ [(occ, step)],
             total_occupancy := occ }
  else p

/-- Python `_check_occupancy(step)`: the loop over every monitored parking. -/
def check_occupancy (o : Oracle) (step : Rat) (m : Monitor) : Monitor :=
  { m with parking_db :=
      m.parking_db.map fun kv => (kv.1, check_occupancy_one o step kv.1 kv.2) }

/-- The ending-stop loop of `_update_parking_db` (runs over *last* step's
ending list): resolve the previous parking area, remove the vehicle from
`occupancy_by_class[v_class]` — the `try/except KeyError` turns both a
missing class key and a missing vehicle into the fatal
"Vehicle ... cannot be removed" exception — and mark the area for
validation; unmonitored areas are skipped. -/
def processEnding : List String → Monitor → List String →
    Except PErr (Monitor × List String)
  | [], m, acc => Except.ok (m, acc)
  | v :: rest, m, acc =>
    match get_parking_area_from_vehicle m v with
    | Except.error e => Except.error e
    | Except.ok none => processEnding rest m acc
    | Except.ok (some area) =>
      match alGet? m.parking_db area with
      | none => processEnding rest m acc
      | some p =>
        match alGet? m.vehicles_db v with
        | none => Except.error PErr.KeyError
        | some veh =>
          match alGet? p.occupancy_by_class veh.vClass with
          | none => Except.error PErr.InconsistentState
          | some s =>
            if v ∈ s then
              processEnding rest
                (setParking m area
                  { p with occupancy_by_class :=
                      alSet p.occupancy_by_class veh.vClass (s.erase v) })
                (insertUniq acc area)
            else Except.error PErr.InconsistentState

/-- The starting-stop loop of `_update_parking_db` (runs over *this* step's
starting list): an unknown vehicle is logged critical but then hits the
uncaught `KeyError` of `_get_parking_area_from_vehicle`; otherwise the
vehicle is added to `occupancy_by_class[v_class]` (uncaught `KeyError` for a
missing class) and the area marked for validation. -/
def processStarting : List String → Monitor → List String →
    Except PErr (Monitor × List String)
  | [], m, acc => Except.ok (m, acc)
  | v :: rest, m, acc =>
    match get_parking_area_from_vehicle m v with
    | Except.error e => Except.error e
    | Except.ok none => processStarting rest m acc
    | Except.ok (some area) =>
      match alGet? m.parking_db area with
      | none => processStarting rest m acc
      | some p =>
        match alGet? m.vehicles_db v with
        | none => Except.error PErr.KeyError
        | some veh =>
          match alGet? p.occupancy_by_class veh.vClass with
          | none => Except.error PErr.KeyError
          | some s =>
            processStarting rest
              (setParking m area
                { p with occupancy_by_class :=
                    alSet p.occupancy_by_class veh.vClass (insert v s) })
              (insertUniq acc area)

/-- The final validation pass of `_update_parking_db`:
`for pid in _to_validate: self._validate_parking_occupancy(pid)`. -/
def validateAll (m : Monitor) : List String → Except PErr Unit
  | [] => Except.ok ()
  | pid :: rest =>
    match validate_parking_occupancy m pid with
    | Except.error e => Except.error e
    | Except.ok _ => validateAll m rest

/-- Python `_update_parking_db(step)`, additionally exposing the `_to_validate` set
(as its insertion-ordered list) for specification purposes: occupancy
refresh, stale ending-list reconciliation, fetch of this step's
starting/ending lists, starting-list reconciliation, validation of every
touched area. -/
def update_parking_db_aux (o : Oracle) (step : Rat) (m : Monitor) :
    Except PErr (Monitor × List String) :=
  let m0 := check_occupancy o step m
  match processEnding m0.ending_stop_subscriptions m0 [] with
  | Except.error e => Except.error e
  | Except.ok (m1, val1) =>
    let m2 := { m1 with starting_stop_subscriptions := o.startingList,
                        ending_stop_subscriptions := o.endingList }
    match processStarting o.startingList m2 val1 with
    | Except.error e => Except.error e
    | Except.ok (m3, val2) =>
      match validateAll m3 val2 with
      | Except.error e => Except.error e
      | Except.ok _ => Except.ok (m3, val2)

/-- Python `_update_parking_db(step)`. -/
def update_parking_db (o : Oracle) (step : Rat) (m : Monitor) : Except PErr Monitor :=
  match update_parking_db_aux o step m with
  | Except.error e => Except.error e
  | Except.ok ms => Except.ok ms.1

/-- Python `step(t)`: the time comes from `simulation.getTime()` (here `o.time`),
then `_monitor_vehicles`, `_update_vehicles_db`, `_update_parking_db` run in
order. -/
def pypml_step (o : Oracle) (m : Monitor) : Except PErr Monitor :=
  match monitor_vehicles o o.time m with
  | Except.error e => Except.error e
  | Except.ok m1 =>
    match update_vehicles_db o o.time m1 with
    | Except.error e => Except.error e
    | Except.ok m2 => update_parking_db o o.time m2

/-- The `_to_validate` set of the `_update_parking_db` phase of a step
(empty when the step does not complete). -/
def stepValidated (o : Oracle) (m : Monitor) : List String :=
  match monitor_vehicles o o.time m with
  | Except.error _ => []
  | Except.ok m1 =>
    match update_vehicles_db o o.time m1 with
    | Except.error _ => []
    | Except.ok m2 =>
      match update_parking_db_aux o o.time m2 with
      | Except.error _ => []
      | Except.ok ms => ms.2

/-- Sum of the sizes of the per-class occupancy sets of a facility. -/
def occSum (p : Parking) : Int :=
  (p.occupancy_by_class.map fun kv => (kv.2.card : Int)).sum

/-- The capacity-side fields of a facility that a simulation step must never
modify. -/
def capView (m : Monitor) (pid : String) : Option (List (String × Int) × Int) :=
  (alGet? m.parking_db pid).map fun p => (p.capacity_by_class, p.total_capacity)

/-- The working occupancy view of §4.5 of the specification: the base occupied
set, unioned with the projected vehicles when projections are included and
with the reserved vehicles when subscriptions are included. -/
def occViewSpec (p : Parking) (wp ws : Bool) (k : String) : Finset String :=
  ((alGet? p.occupancy_by_class k).getD ∅)
    ∪ (if wp then (alGet? p.projections_by_class k).getD ∅ else ∅)
    ∪ (if ws then ((alGet? p.subscriptions_by_class k).map fun s => s.2).getD ∅ else ∅)

/-- The reserved-but-unfilled subscription slots of a class, counted only when
subscriptions are included. -/
def unfilledSlotsSpec (p : Parking) (ws : Bool) (k : String) : Int :=
  if ws then ((alGet? p.subscriptions_by_class k).map fun s => s.1 - (s.2.card : Int)).getD 0
  else 0

/-- The per-class free-places answer as the specification states it (§4.5):
for each configured class, `capacity[class] + uncertainty_draw − |occupancy
view| − unfilled subscription slots`; the single class's value when a
configured class is requested, the full mapping otherwise. -/
def freePlacesSpecByClass (p : Parking) (err : Int) (vclass : Option String)
    (wp ws : Bool) : FreePlacesResult :=
  let M := p.capacity_by_class.map fun kv =>
    (kv.1, kv.2 + err - ((occViewSpec p wp ws kv.1).card : Int) - unfilledSlotsSpec p ws kv.1)
  match vclass with
  | some c =>
    match alGet? M c with
    | some v => FreePlacesResult.single v
    | none => FreePlacesResult.byClass M
  | none => FreePlacesResult.byClass M

/-- All fields of a facility record except `subscriptions_by_class`. -/
def nonSubscriptionFields (p : Parking) :
    String × String × Rat × Int × Int × List (Int × Rat) × List (String × Int) ×
      List (String × Finset String) × List (String × Finset String) × Rat × Rat :=
  (p.sumo_id, p.sumo_lane, p.sumo_endPos, p.total_capacity, p.total_occupancy,
   p.occupancy_series, p.capacity_by_class, p.occupancy_by_class,
   p.projections_by_class, p.uncertainty_mu, p.uncertainty_sigma)

/-- A facility used by the concrete instances below. -/
def basePark : Parking :=
  { sumo_id := "p1", sumo_lane := "e1_0", sumo_endPos := 10,
    total_capacity := 10, total_occupancy := 0, occupancy_series := [],
    capacity_by_class := [], occupancy_by_class := [("car", ∅)],
    projections_by_class := [("car", ∅)], subscriptions_by_class := [],
    uncertainty_mu := 0, uncertainty_sigma := 0 }

/-- A monitor with the single facility `p1` and configured class set
`{"car"}`. -/
def baseMonitor : Monitor :=
  { parking_db := [("p1", basePark)], routers_db := [], vehicles_db := [],
    passengers_db := ∅, vclasses := {"car"}, only_parkings := false,
    blacklisted_edges_pairs := [], static_parking_travel_time := [],
    starting_stop_subscriptions := [], ending_stop_subscriptions := [] }

/-- An oracle step with no vehicle events whose occupancy counter reports 5
vehicles in every facility. -/
def oracleDrift : Oracle :=
  { time := 1, departed := [], arrived := [], vehicleClass := fun _ => "car",
    nextStops := fun _ => [], personIDList := fun _ => [], vehSubs := [],
    occupancyOf := fun _ => 5, startingList := [], endingList := [] }

/-- An oracle step with no vehicle events whose occupancy counter agrees with
the stored `total_occupancy` (0) of `baseMonitor`. -/
def oracleQuiet : Oracle :=
  { time := 1, departed := [], arrived := [], vehicleClass := fun _ => "car",
    nextStops := fun _ => [], personIDList := fun _ => [], vehSubs := [],
    occupancyOf := fun _ => 0, startingList := [], endingList := [] }

theorem alGet?_alSet_self {α : Type} (l : List (String × α)) (k : String) (v : α) :
    alGet? (alSet l k v) k = some v := by
  induction l with
  | nil => simp [alSet, alGet?]
  | cons kv rest ih =>
    by_cases h : kv.1 = k
    · simp [alSet, alGet?, h]
    · simp [alSet, alGet?, h, ih]

theorem alGet?_alSet_ne {α : Type} (l : List (String × α)) {k k' : String} (v : α)
    (h : k' ≠ k) : alGet? (alSet l k v) k' = alGet? l k' := by
  induction l with
  | nil => simp [alSet, alGet?, Ne.symm h]
  | cons kv rest ih =>
    by_cases hk : kv.1 = k
    · subst hk
      simp [alSet, alGet?, Ne.symm h]
    · by_cases hk' : kv.1 = k'
      · simp [alSet, alGet?, hk, hk', h]
      · simp [alSet, alGet?, hk, hk', ih]

theorem alGet?_eq_none_iff {α : Type} (l : List (String × α)) (k : String) :
    alGet? l k = none ↔ k ∉ alKeys l := by
  induction l with
  | nil => simp [alGet?, alKeys]
  | cons kv rest ih =>
    by_cases h : kv.1 = k
    · simp [alGet?, alKeys, h]
    · simp [alGet?, alKeys, h, ih, Ne.symm h]

theorem alGet?_isSome_of_mem {α : Type} {l : List (String × α)} {k : String}
    (h : k ∈ alKeys l) : ∃ v, alGet? l k = some v := by
  cases hv : alGet? l k with
  | none => exact absurd ((alGet?_eq_none_iff l k).mp hv) (not_not_intro h)
  | some v => exact ⟨v, rfl⟩

theorem mem_alKeys_of_isSome {α : Type} {l : List (String × α)} {k : String} {v : α}
    (h : alGet? l k = some v) : k ∈ alKeys l := by
  by_contra hk
  rw [(alGet?_eq_none_iff l k).mpr hk] at h
  exact Option.noConfusion h

theorem alKeys_alSet_of_mem {α : Type} {l : List (String × α)} {k : String} (v : α)
    (h : k ∈ alKeys l) : alKeys (alSet l k v) = alKeys l := by
  induction l with
  | nil => simp [alKeys] at h
  | cons kv rest ih =>
    by_cases hk : kv.1 = k
    · simp [alSet, alKeys, hk]
    · have hmem : k ∈ alKeys rest := by
        simp only [alKeys, List.map_cons, List.mem_cons] at h
        exact h.resolve_left fun he => hk he.symm
      have h2 := ih hmem
      simp only [alSet, if_neg hk, alKeys, List.map_cons]
      simp only [alKeys] at h2
      rw [h2]

theorem alSet_of_not_mem {α : Type} {l : List (String × α)} {k : String} (v : α)
    (h : k ∉ alKeys l) : alSet l k v = l ++ [(k, v)] := by
  induction l with
  | nil => simp [alSet]
  | cons kv rest ih =>
    have h1 : kv.1 ≠ k := fun he => h (by simp [alKeys, he])
    have h2 : k ∉ alKeys rest := fun hm =>
      h (by simp only [alKeys, List.map_cons]; exact List.mem_cons_of_mem _ hm)
    simp [alSet, h1, ih h2]

theorem alSet_eq_map {α : Type} {l : List (String × α)} {k : String} (v : α)
    (hnd : (alKeys l).Nodup) (hm : k ∈ alKeys l) :
    alSet l k v = l.map fun kv => if kv.1 = k then (k, v) else kv := by
  induction l with
  | nil => simp [alKeys] at hm
  | cons kv rest ih =>
    simp only [alKeys, List.map_cons, List.nodup_cons] at hnd
    by_cases hk : kv.1 = k
    · subst hk
      have hne : ∀ kv' ∈ rest, ¬ kv'.1 = kv.1 := fun kv' h' he =>
        hnd.1 (he ▸ List.mem_map_of_mem Prod.fst h')
      simp only [alSet, List.map_cons, if_pos rfl]
      rw [List.map_congr_left fun a ha => if_neg (hne a ha)]
      simp
    · have hmem : k ∈ alKeys rest := by
        simp only [alKeys, List.map_cons, List.mem_cons] at hm
        exact hm.resolve_left fun he => hk he.symm
      simp only [alSet, if_neg hk, List.map_cons, if_neg hk]
      rw [ih hnd.2 hmem]

theorem alGet?_map_entry {α β : Type} (g : String → α → β) (l : List (String × α))
    (k : String) :
    alGet? (l.map fun kv => (kv.1, g kv.1 kv.2)) k = (alGet? l k).map (g k) := by
  induction l with
  | nil => simp [alGet?]
  | cons kv rest ih =>
    by_cases h : kv.1 = k
    · subst h
      simp [alGet?]
    · simp [alGet?, h, ih]

theorem alKeys_map_entry {α β : Type} (g : String → α → β) (l : List (String × α)) :
    alKeys (l.map fun kv => (kv.1, g kv.1 kv.2)) = alKeys l := by
  induction l with
  | nil => rfl
  | cons kv rest ih =>
    simp only [alKeys, List.map_cons] at ih ⊢
    rw [ih]

theorem alGet?_of_mem_nodup {α : Type} {l : List (String × α)} {k : String} {v : α}
    (hnd : (alKeys l).Nodup) (hm : (k, v) ∈ l) : alGet? l k = some v := by
  induction l with
  | nil => simp at hm
  | cons kv rest ih =>
    simp only [alKeys, List.map_cons, List.nodup_cons] at hnd
    rcases List.mem_cons.mp hm with h | h
    · subst h
      simp [alGet?]
    · have hne : kv.1 ≠ k := fun he =>
        hnd.1 (he ▸ List.mem_map_of_mem Prod.fst h)
      simp only [alGet?, if_neg hne]
      exact ih hnd.2 h

instance exceptDecidableEq {ε α : Type} [DecidableEq ε] [DecidableEq α] :
    DecidableEq (Except ε α) := fun a b =>
  match a, b with
  | Except.ok x, Except.ok y =>
    if h : x = y then Decidable.isTrue (by rw [h])
    else Decidable.isFalse (by intro he; cases he; exact h rfl)
  | Except.ok _, Except.error _ => Decidable.isFalse (by intro he; cases he)
  | Except.error _, Except.ok _ => Decidable.isFalse (by intro he; cases he)
  | Except.error x, Except.error y =>
    if h : x = y then Decidable.isTrue (by rw [h])
    else Decidable.isFalse (by intro he; cases he; exact h rfl)

/-- Claim C8 (counterexample): looking up an unknown facility id does not fail
with `NotFound`; `get_parking` answers the normal value `None`. -/
theorem get_parking_returns_none_not_error :
    get_parking baseMonitor "ghost" = Except.ok none ∧
    get_parking baseMonitor "ghost" ≠ Except.error PErr.NotFound := by
  exact ⟨rfl, by decide⟩

/-- Claim C8 (amended): facility lookup by id never raises; it returns the
absent marker `None` when the id is unknown and a snapshot copy of the
facility's state when present. -/
theorem get_parking_total_lookup (m : Monitor) (parking : String) :
    (alGet? m.parking_db parking = none → get_parking m parking = Except.ok none) ∧
    (∀ p, alGet? m.parking_db parking = some p →
      get_parking m parking = Except.ok (some p)) ∧
    (∀ e, get_parking m parking ≠ Except.error e) := by
  refine ⟨fun h => ?_, fun p h => ?_, fun e h => ?_⟩
  · simp [get_parking, h]
  · simp [get_parking, h]
  · simp [get_parking] at h

/-- Claim C3: the projections query raises `KeyError` for every registered
facility, because it reads the key `projection_by_class` while the record
stores `projections_by_class`; `NotFound` is raised only for unknown ids. -/
theorem get_parking_projections_keyerror_on_registered :
    alGet? baseMonitor.parking_db "p1" = some basePark ∧
    basePark.projections_by_class = [("car", ∅)] ∧
    get_parking_projections baseMonitor "p1" = Except.error PErr.KeyError ∧
    get_parking_projections baseMonitor "ghost" = Except.error PErr.NotFound := by
  refine ⟨rfl, rfl, ?_, rfl⟩
  decide

/-- The raw XML attributes of a rerouter with two intervals, ends 10 and 20
(converted to 10000 and 20000 milliseconds by the loader), offering area `A`
(visible) in the first and area `B` in the second. -/
def rerouterRaw : List (Int × List (String × Option String)) :=
  [(10, [("A", some "true")]), (20, [("B", none)])]

/-- The rerouter built by the loader from `rerouterRaw`. -/
def rerouterDemo : Rerouter :=
  { id := "r1", edges := ["e1"], intervals := load_rerouter_intervals rerouterRaw }

/-- The monitor `baseMonitor` extended with `rerouterDemo`. -/
def monitorWithRerouter : Monitor :=
  { baseMonitor with routers_db := [("r1", rerouterDemo)] }

/-- Claim C9: the interval scan of `get_rerouter_iterator` does not select the
first interval whose end time is at least the query step.  At step 15000 the
active interval is the second one (10000 < 15000 ≤ 20000), yet the iterator
yields the first interval's offer list, and at step 5000 (inside the first
interval) it yields the second interval's offer list. -/
theorem rerouter_iterator_selects_wrong_interval :
    rerouterDemo.intervals = [(10000, [("A", true)]), (20000, [("B", false)])] ∧
    ¬ ((15000 : Rat) ≤ 10000) ∧ (15000 : Rat) ≤ 20000 ∧
    get_rerouter_iterator monitorWithRerouter 15000 =
      [{ id := "r1", edges := ["e1"], info := some [("A", true)] }] ∧
    (5000 : Rat) ≤ 10000 ∧
    get_rerouter_iterator monitorWithRerouter 5000 =
      [{ id := "r1", edges := ["e1"], info := some [("B", false)] }] := by
  refine ⟨rfl, by norm_num, by norm_num, ?_, by norm_num, ?_⟩ <;> decide

/-- Claim C4: with no optional flags, no requested class and no per-class
capacity split, `get_free_places` returns exactly
`total_capacity - total_occupancy`. -/
theorem free_places_no_split (m : Monitor) (parking : String) (p : Parking) (draw : Int)
    (h : alGet? m.parking_db parking = some p) (hc : p.capacity_by_class = []) :
    get_free_places m parking false draw none false false =
      Except.ok (FreePlacesResult.single (p.total_capacity - p.total_occupancy)) := by
  unfold get_free_places
  rw [h]
  simp [hc]

/-- A facility with `total_capacity = 10`, `total_occupancy = 3` and no class
split. -/
def parkTenThree : Parking := { basePark with total_capacity := 10, total_occupancy := 3 }

/-- The monitor `baseMonitor` with `parkTenThree` registered as `p1`. -/
def monitorTenThree : Monitor := { baseMonitor with parking_db := [("p1", parkTenThree)] }

/-- Claim C4 (witness): the spec's example — capacity 10, occupancy 3, no
flags — yields 7 free places. -/
theorem free_places_no_split_witness :
    alGet? monitorTenThree.parking_db "p1" = some parkTenThree ∧
    parkTenThree.capacity_by_class = [] ∧
    get_free_places monitorTenThree "p1" false 0 none false false =
      Except.ok (FreePlacesResult.single 7) := by
  refine ⟨rfl, rfl, ?_⟩
  exact (free_places_no_split monitorTenThree "p1" parkTenThree 0 rfl rfl).trans (by decide)

/-- Claim C6: on a registered facility, subscribing a vehicle raises
`NotConfigured` when the class has no subscription entry; returns `False`
without any state change when the vehicle is already reserved or the
reservation set already holds (at least) the reserved count; and adds the
vehicle returning `True` when there is room. -/
theorem subscribe_vehicle_cases (m : Monitor) (parking vclass vehicle : String)
    (p : Parking) (h : alGet? m.parking_db parking = some p) :
    (alGet? p.subscriptions_by_class vclass = none →
      subscribe_vehicle_to_parking m parking vclass vehicle =
        (Except.error PErr.NotConfigured, m)) ∧
    (∀ cap vs, alGet? p.subscriptions_by_class vclass = some (cap, vs) →
      (vehicle ∈ vs →
        subscribe_vehicle_to_parking m parking vclass vehicle = (Except.ok false, m)) ∧
      (vehicle ∉ vs → cap ≤ (vs.card : Int) →
        subscribe_vehicle_to_parking m parking vclass vehicle = (Except.ok false, m)) ∧
      (vehicle ∉ vs → (vs.card : Int) < cap →
        (subscribe_vehicle_to_parking m parking vclass vehicle).1 = Except.ok true ∧
        alGet? (subscribe_vehicle_to_parking m parking vclass vehicle).2.parking_db parking =
          some { p with
            subscriptions_by_class := alSet p.subscriptions_by_class vclass
              (cap, insert vehicle vs) })) := by
  constructor
  · intro hn
    simp [subscribe_vehicle_to_parking, h, hn]
  · intro cap vs hs
    refine ⟨fun hmem => ?_, fun hnm hfull => ?_, fun hnm hroom => ?_⟩
    · simp [subscribe_vehicle_to_parking, h, hs, hmem]
    · simp [subscribe_vehicle_to_parking, h, hs, hnm, not_lt.mpr hfull]
    · constructor
      · simp [subscribe_vehicle_to_parking, h, hs, hnm, hroom]
      · simp only [subscribe_vehicle_to_parking, h, hs, if_neg hnm, if_pos hroom,
          setParking]
        exact alGet?_alSet_self _ _ _

/-- The reservation set `{"v1"}`. -/
def vOne : Finset String := {"v1"}

/-- A facility with a car capacity split and a subscription entry
`car ↦ (2 reserved slots, {v1})`. -/
def parkWithSubs : Parking :=
  { basePark with
    capacity_by_class := [("car", 10)]
    subscriptions_by_class := [("car", 2, vOne)] }

/-- The monitor `baseMonitor` with `parkWithSubs` registered as `p1`. -/
def monitorWithSubs : Monitor := { baseMonitor with parking_db := [("p1", parkWithSubs)] }

/-- Claim C6 (witness): with one of two reserved slots taken, subscribing a
fresh vehicle succeeds and the reservation set grows. -/
theorem subscribe_vehicle_cases_witness :
    alGet? monitorWithSubs.parking_db "p1" = some parkWithSubs ∧
    ((subscribe_vehicle_to_parking monitorWithSubs "p1" "car" "v2").1 = Except.ok true ∧
     alGet? (subscribe_vehicle_to_parking monitorWithSubs "p1" "car" "v2").2.parking_db "p1" =
       some { parkWithSubs with
         subscriptions_by_class := alSet parkWithSubs.subscriptions_by_class "car"
           (2, insert "v2" vOne) }) := by
  refine ⟨rfl, ?_⟩
  exact ((subscribe_vehicle_cases monitorWithSubs "p1" "car" "v2" parkWithSubs rfl).2
    2 vOne rfl).2.2 (by decide) (by decide)

/-- Claim C10: subscribing or unsubscribing a vehicle touches at most the
reservation set of the addressed class at the addressed facility — every
other facility, every other class's entry, the class's reserved count, all
non-subscription facility fields, and all non-facility monitor state are
unchanged, whatever the outcome. -/
theorem subscribe_unsubscribe_frame (m : Monitor) (parking vclass vehicle : String)
    (p : Parking) (h : alGet? m.parking_db parking = some p) :
    (∀ r m', subscribe_vehicle_to_parking m parking vclass vehicle = (r, m') ∨
             remove_subscribed_vehicle m parking vclass vehicle = (r, m') →
      (∀ pid, pid ≠ parking → alGet? m'.parking_db pid = alGet? m.parking_db pid) ∧
      (∃ p', alGet? m'.parking_db parking = some p' ∧
        nonSubscriptionFields p' = nonSubscriptionFields p ∧
        (∀ c, c ≠ vclass →
          alGet? p'.subscriptions_by_class c = alGet? p.subscriptions_by_class c) ∧
        (∀ cap vs, alGet? p.subscriptions_by_class vclass = some (cap, vs) →
          ∃ vs', alGet? p'.subscriptions_by_class vclass = some (cap, vs') ∧
            (vs' = vs ∨ vs' = insert vehicle vs ∨ vs' = vs.erase vehicle))) ∧
      m'.routers_db = m.routers_db ∧ m'.vehicles_db = m.vehicles_db ∧
      m'.passengers_db = m.passengers_db ∧ m'.vclasses = m.vclasses ∧
      m'.only_parkings = m.only_parkings ∧
      m'.blacklisted_edges_pairs = m.blacklisted_edges_pairs ∧
      m'.static_parking_travel_time = m.static_parking_travel_time ∧
      m'.starting_stop_subscriptions = m.starting_stop_subscriptions ∧
      m'.ending_stop_subscriptions = m.ending_stop_subscriptions) := by
  have unchanged :
      (∀ pid, pid ≠ parking → alGet? m.parking_db pid = alGet? m.parking_db pid) ∧
      (∃ p', alGet? m.parking_db parking = some p' ∧
        nonSubscriptionFields p' = nonSubscriptionFields p ∧
        (∀ c, c ≠ vclass →
          alGet? p'.subscriptions_by_class c = alGet? p.subscriptions_by_class c) ∧
        (∀ cap vs, alGet? p.subscriptions_by_class vclass = some (cap, vs) →
          ∃ vs', alGet? p'.subscriptions_by_class vclass = some (cap, vs') ∧
            (vs' = vs ∨ vs' = insert vehicle vs ∨ vs' = vs.erase vehicle))) ∧
      m.routers_db = m.routers_db ∧ m.vehicles_db = m.vehicles_db ∧
      m.passengers_db = m.passengers_db ∧ m.vclasses = m.vclasses ∧
      m.only_parkings = m.only_parkings ∧
      m.blacklisted_edges_pairs = m.blacklisted_edges_pairs ∧
      m.static_parking_travel_time = m.static_parking_travel_time ∧
      m.starting_stop_subscriptions = m.starting_stop_subscriptions ∧
      m.ending_stop_subscriptions = m.ending_stop_subscriptions := by
    refine ⟨fun _ _ => rfl, ⟨p, h, rfl, fun _ _ => rfl, fun cap vs hcv =>
      ⟨vs, hcv, Or.inl rfl⟩⟩, rfl, rfl, rfl, rfl, rfl, rfl, rfl, rfl, rfl⟩
  have mutated : ∀ cv : Int × Finset String,
      alGet? p.subscriptions_by_class vclass = some cv →
      ∀ s' : Finset String, (s' = insert vehicle cv.2 ∨ s' = cv.2.erase vehicle) →
      (∀ pid, pid ≠ parking →
        alGet? (setParking m parking
          { p with subscriptions_by_class :=
              alSet p.subscriptions_by_class vclass (cv.1, s') }).parking_db pid =
        alGet? m.parking_db pid) ∧
      (∃ p', alGet? (setParking m parking
          { p with subscriptions_by_class :=
              alSet p.subscriptions_by_class vclass (cv.1, s') }).parking_db parking =
            some p' ∧
        nonSubscriptionFields p' = nonSubscriptionFields p ∧
        (∀ c, c ≠ vclass →
          alGet? p'.subscriptions_by_class c = alGet? p.subscriptions_by_class c) ∧
        (∀ cap vs, alGet? p.subscriptions_by_class vclass = some (cap, vs) →
          ∃ vs', alGet? p'.subscriptions_by_class vclass = some (cap, vs') ∧
            (vs' = vs ∨ vs' = insert vehicle vs ∨ vs' = vs.erase vehicle))) := by
    intro cv hcv s' hs'
    refine ⟨fun pid hpid => alGet?_alSet_ne _ _ hpid, ?_⟩
    refine ⟨_, alGet?_alSet_self _ _ _, rfl, fun c hc => alGet?_alSet_ne _ _ hc,
      fun cap vs hcv2 => ?_⟩
    rw [hcv] at hcv2
    cases hcv2
    refine ⟨s', alGet?_alSet_self _ _ _, ?_⟩
    rcases hs' with h1 | h1
    · exact Or.inr (Or.inl h1)
    · exact Or.inr (Or.inr h1)
  intro r m' hop
  rcases hop with hop | hop
  · simp only [subscribe_vehicle_to_parking, h] at hop
    cases hcv : alGet? p.subscriptions_by_class vclass with
    | none =>
      simp only [hcv] at hop
      cases hop
      rw [← hcv]
      exact unchanged
    | some cv =>
      simp only [hcv] at hop
      by_cases hmem : vehicle ∈ cv.2
      · rw [if_pos hmem] at hop
        cases hop
        rw [← hcv]
        exact unchanged
      · rw [if_neg hmem] at hop
        by_cases hroom : (cv.2.card : Int) < cv.1
        · rw [if_pos hroom] at hop
          cases hop
          rw [← hcv]
          have := mutated cv hcv (insert vehicle cv.2) (Or.inl rfl)
          exact ⟨this.1, this.2, rfl, rfl, rfl, rfl, rfl, rfl, rfl, rfl, rfl⟩
        · rw [if_neg hroom] at hop
          cases hop
          rw [← hcv]
          exact unchanged
  · simp only [remove_subscribed_vehicle, h] at hop
    cases hcv : alGet? p.subscriptions_by_class vclass with
    | none =>
      simp only [hcv] at hop
      cases hop
      rw [← hcv]
      exact unchanged
    | some cv =>
      simp only [hcv] at hop
      by_cases hmem : vehicle ∈ cv.2
      · rw [if_pos hmem] at hop
        cases hop
        rw [← hcv]
        have := mutated cv hcv (cv.2.erase vehicle) (Or.inr rfl)
        exact ⟨this.1, this.2, rfl, rfl, rfl, rfl, rfl, rfl, rfl, rfl, rfl⟩
      · rw [if_neg hmem] at hop
        cases hop
        rw [← hcv]
        exact unchanged

/-- Claim C10 (witness): a concrete successful subscription leaves the
vehicle database and the other monitor state untouched. -/
theorem subscribe_unsubscribe_frame_witness :
    alGet? monitorWithSubs.parking_db "p1" = some parkWithSubs ∧
    (subscribe_vehicle_to_parking monitorWithSubs "p1" "car" "v7").2.vehicles_db =
      monitorWithSubs.vehicles_db := by
  refine ⟨rfl, ?_⟩
  exact ((subscribe_unsubscribe_frame monitorWithSubs "p1" "car" "v7" parkWithSubs rfl)
    (subscribe_vehicle_to_parking monitorWithSubs "p1" "car" "v7").1
    (subscribe_vehicle_to_parking monitorWithSubs "p1" "car" "v7").2
    (Or.inl rfl)).2.2.2.1

theorem validate_subs_loop_ok_iff (cap : List (String × Int))
    (subs : List (String × Int × Finset String)) :
    validate_subs_loop cap subs = Except.ok () ↔
      ∀ kv ∈ subs, ∃ c, alGet? cap kv.1 = some c ∧ kv.2.1 ≤ c := by
  induction subs with
  | nil => simp [validate_subs_loop]
  | cons kv rest ih =>
    cases hc : alGet? cap kv.1 with
    | none =>
      simp only [validate_subs_loop, hc]
      constructor
      · intro he
        exact absurd he (by simp)
      · intro hall
        rcases hall kv (List.mem_cons_self kv rest) with ⟨c, hc2, _⟩
        rw [hc] at hc2
        exact Option.noConfusion hc2
    | some c =>
      simp only [validate_subs_loop, hc]
      by_cases hgt : kv.2.1 > c
      · simp only [if_pos hgt]
        constructor
        · intro he
          exact absurd he (by simp)
        · intro hall
          rcases hall kv (List.mem_cons_self kv rest) with ⟨c', hc2, hle⟩
          rw [hc] at hc2
          cases hc2
          exact absurd hle (not_le.mpr hgt)
      · simp only [if_neg hgt]
        rw [ih]
        constructor
        · intro hall
          intro kv' hkv'
          rcases List.mem_cons.mp hkv' with he | he
          · subst he
            exact ⟨c, hc, not_lt.mp hgt⟩
          · exact hall kv' he
        · intro hall kv' hkv'
          exact hall kv' (List.mem_cons_of_mem _ hkv')

/-- Claim C2 (amended): both setters replace the facility's mapping *before*
validating — the supplied mapping is the post-state whatever the outcome —
and the call succeeds exactly when the new mapping validates. -/
theorem setters_replace_mapping_before_validation (m : Monitor) (pid : String)
    (p : Parking) (caps : List (String × Int))
    (subs : List (String × Int × Finset String))
    (h : alGet? m.parking_db pid = some p) :
    ((set_parking_capacity_vclass m pid caps).2 =
        setParking m pid { p with capacity_by_class := caps } ∧
      ((set_parking_capacity_vclass m pid caps).1 = Except.ok () ↔
        (alKeysFinset caps = m.vclasses ∧
          (caps.map Prod.snd).sum = p.total_capacity))) ∧
    ((set_parking_subscriptions m pid subs).2 =
        setParking m pid { p with subscriptions_by_class := subs } ∧
      ((set_parking_subscriptions m pid subs).1 = Except.ok () ↔
        (p.capacity_by_class ≠ [] ∧ alKeysFinset subs = m.vclasses ∧
          ∀ kv ∈ subs, ∃ c, alGet? p.capacity_by_class kv.1 = some c ∧ kv.2.1 ≤ c))) := by
  refine ⟨⟨by simp [set_parking_capacity_vclass, h], ?_⟩,
          ⟨by simp [set_parking_subscriptions, h], ?_⟩⟩
  · simp only [set_parking_capacity_vclass, h, validate_parking_capacity, setParking,
      alGet?_alSet_self]
    by_cases h1 : alKeysFinset caps = m.vclasses
    · by_cases h2 : (caps.map Prod.snd).sum = p.total_capacity
      · simp [h1, h2]
      · simp [h1, h2]
    · simp [h1]
  · simp only [set_parking_subscriptions, h, validate_parking_subscriptions, setParking,
      alGet?_alSet_self]
    by_cases h0 : p.capacity_by_class = []
    · simp [h0]
    · by_cases h1 : alKeysFinset subs = m.vclasses
      · simp [h0, h1, validate_subs_loop_ok_iff]
      · simp [h0, h1]

/-- The configured class set `{"car", "truck"}`. -/
def carTruck : Finset String := {"car", "truck"}

/-- A facility of capacity 10 split as `car ↦ 8, truck ↦ 2`. -/
def parkSplit : Parking :=
  { basePark with
    total_capacity := 10
    capacity_by_class := [("car", 8), ("truck", 2)]
    occupancy_by_class := [("car", ∅), ("truck", ∅)]
    projections_by_class := [("car", ∅), ("truck", ∅)] }

/-- A monitor with classes `{car, truck}` and `parkSplit` registered. -/
def monitorSplit : Monitor :=
  { baseMonitor with parking_db := [("p1", parkSplit)], vclasses := carTruck }

/-- Claim C2 (counterexample): setting an invalid capacity mapping (sums to
7, not 10) raises, yet afterwards the facility holds the *new* invalid
mapping, not the previous valid one. -/
theorem capacity_setter_failure_leaves_new_mapping :
    (set_parking_capacity_vclass monitorSplit "p1" [("car", 5), ("truck", 2)]).1 =
      Except.error PErr.InvariantViolation ∧
    (alGet? (set_parking_capacity_vclass monitorSplit "p1"
        [("car", 5), ("truck", 2)]).2.parking_db "p1").map Parking.capacity_by_class =
      some [("car", 5), ("truck", 2)] ∧
    parkSplit.capacity_by_class = [("car", 8), ("truck", 2)] ∧
    ([("car", 5), ("truck", 2)] : List (String × Int)) ≠ [("car", 8), ("truck", 2)] := by
  refine ⟨by decide, by decide, rfl, by decide⟩

/-- Claim C2 (witness): a valid capacity mapping (sums to 10 over exactly the
configured classes) is accepted. -/
theorem setters_replace_mapping_before_validation_witness :
    alGet? monitorSplit.parking_db "p1" = some parkSplit ∧
    (set_parking_capacity_vclass monitorSplit "p1" [("car", 6), ("truck", 4)]).1 =
      Except.ok () := by
  refine ⟨rfl, ?_⟩
  exact ((setters_replace_mapping_before_validation monitorSplit "p1" parkSplit
    [("car", 6), ("truck", 4)] [] rfl).1.2).mpr ⟨by decide, by decide⟩

/-- A routing oracle for which every route request fails. -/
def frNone : FindRoute := fun _ _ => none

/-- Claim C7 (counterexample): after building the travel-time graph over a
single facility the structure is empty (no ordered pair survives the
self-pair filter), so the closest-facilities query still raises
`NotInitialized` even though a build has happened. -/
theorem closest_raises_after_build :
    (compute_parking_travel_time baseMonitor frNone).static_parking_travel_time = [] ∧
    get_closest_parkings (compute_parking_travel_time baseMonitor frNone) "p1" none =
      Except.error PErr.NotInitialized := by
  refine ⟨by decide, by decide⟩

/-- Claim C7 (amended): `get_closest_parkings` raises `NotInitialized` exactly
when the stored travel-time structure is empty — always before any build, and
after a build exactly when the build stored no routable pair.  Otherwise it
returns the stored list of `(cost, id)` pairs of the requested facility,
truncated to at most `n` entries when `n` is positive (`n = 0` and negative
`n` disable truncation, as does omitting it); the lists a build stores are
sorted ascending by cost, and so is every truncation of them. -/
theorem closest_parkings_behaviour (m : Monitor) (fr : FindRoute) (parking : String)
    (num : Option Int) :
    (get_closest_parkings m parking num = Except.error PErr.NotInitialized ↔
      m.static_parking_travel_time = []) ∧
    (m.static_parking_travel_time ≠ [] →
      get_closest_parkings m parking num =
        Except.ok (pyTruncate num ((alGet? m.static_parking_travel_time parking).getD []))) ∧
    (∀ k : Int, 0 < k → ∀ l : List (Rat × String),
      (pyTruncate (some k) l).length ≤ k.toNat ∧ (pyTruncate (some k) l).Sublist l) ∧
    (∀ pid l,
      alGet? (compute_parking_travel_time m fr).static_parking_travel_time pid = some l →
      l.Pairwise (fun a b : Rat × String => a.1 ≤ b.1) ∧
      ∀ num', (pyTruncate num' l).Pairwise (fun a b : Rat × String => a.1 ≤ b.1)) := by
  refine ⟨?_, ?_, ?_, ?_⟩
  · by_cases he : m.static_parking_travel_time = []
    · simp [get_closest_parkings, he]
    · simp [get_closest_parkings, he]
  · intro he
    simp only [get_closest_parkings, if_neg he]
    cases halg : alGet? m.static_parking_travel_time parking with
    | some items => simp
    | none =>
      cases num with
      | none => simp [pyTruncate]
      | some k => by_cases hk : k ≤ 0 <;> simp [pyTruncate, hk]
  · intro k hk l
    have hle : ¬ k ≤ 0 := not_le.mpr hk
    constructor
    · simp [pyTruncate, hle]
    · simp only [pyTruncate, if_neg hle]
      exact List.take_sublist _ _
  · intro pid l hl
    have hsorted : l.Pairwise pairLe := by
      simp only [compute_parking_travel_time] at hl
      rw [show (fun kv : String × List (Rat × String) =>
            (kv.1, List.insertionSort pairLe kv.2)) =
          (fun kv : String × List (Rat × String) =>
            (kv.1, (fun _ v => List.insertionSort pairLe v) kv.1 kv.2)) from rfl,
        alGet?_map_entry (fun _ v => List.insertionSort pairLe v)] at hl
      rcases Option.map_eq_some'.mp hl with ⟨l0, _, hfl⟩
      rw [← hfl]
      exact List.sorted_insertionSort pairLe l0
    have hcost : l.Pairwise (fun a b : Rat × String => a.1 ≤ b.1) := by
      refine hsorted.imp ?_
      intro a b hab
      rcases hab with hlt | ⟨heq, _⟩
      · exact le_of_lt hlt
      · exact le_of_eq heq
    refine ⟨hcost, fun num' => ?_⟩
    cases num' with
    | none => exact hcost
    | some k =>
      by_cases hk : k ≤ 0
      · simpa [pyTruncate, hk] using hcost
      · simp only [pyTruncate, if_neg hk]
        exact hcost.sublist (List.take_sublist _ _)

/-- A monitor holding a prebuilt two-destination distance list for `p1`. -/
def monitorStatic : Monitor :=
  { baseMonitor with static_parking_travel_time := [("p1", [(1, "p2"), (2, "p3")])] }

/-- Claim C7 (witness): a non-empty structure answers queries, truncated to
the requested count. -/
theorem closest_parkings_behaviour_witness :
    monitorStatic.static_parking_travel_time ≠ [] ∧
    get_closest_parkings monitorStatic "p1" (some 1) =
      Except.ok (pyTruncate (some 1)
        ((alGet? monitorStatic.static_parking_travel_time "p1").getD [])) := by
  refine ⟨by decide, ?_⟩
  exact (closest_parkings_behaviour monitorStatic frNone "p1" (some 1)).2.1 (by decide)

theorem mem_alKeysFinset {α : Type} {l : List (String × α)} {k : String} :
    k ∈ alKeysFinset l ↔ k ∈ alKeys l := List.mem_toFinset

theorem projLoop_ok (proj : List (String × Finset String)) :
    ∀ (occ : List (String × Finset String)) (t : Int),
    (alKeys proj).Nodup → (∀ k ∈ alKeys proj, k ∈ alKeys occ) →
    ∃ occ', projLoop proj occ t =
        Except.ok (t + (proj.map fun kv => (kv.2.card : Int)).sum, occ') ∧
      alKeys occ' = alKeys occ ∧
      ∀ k, alGet? occ' k = (match alGet? proj k with
        | some vs => (alGet? occ k).map (· ∪ vs)
        | none => alGet? occ k) := by
  induction proj with
  | nil =>
    intro occ t _ _
    refine ⟨occ, by simp [projLoop], rfl, fun k => by simp [alGet?]⟩
  | cons kv rest ih =>
    intro occ t hnd hsub
    simp only [alKeys, List.map_cons, List.nodup_cons] at hnd
    rcases alGet?_isSome_of_mem (hsub kv.1 (by simp [alKeys])) with ⟨cur, hcur⟩
    have hkeys1 : alKeys (alSet occ kv.1 (cur ∪ kv.2)) = alKeys occ :=
      alKeys_alSet_of_mem _ (mem_alKeys_of_isSome hcur)
    have hsub' : ∀ k ∈ alKeys rest, k ∈ alKeys (alSet occ kv.1 (cur ∪ kv.2)) := by
      intro k hk
      rw [hkeys1]
      exact hsub k (by simp [alKeys]; exact Or.inr (by simpa [alKeys] using hk))
    rcases ih (alSet occ kv.1 (cur ∪ kv.2)) (t + kv.2.card) hnd.2 hsub' with
      ⟨occ', hrun, hkeys, hpt⟩
    refine ⟨occ', ?_, hkeys.trans hkeys1, ?_⟩
    · simp only [projLoop, hcur, hrun, List.map_cons, List.sum_cons]
      rw [← add_assoc]
    · intro k
      by_cases hk : k = kv.1
      · subst hk
        have hnone : alGet? rest kv.1 = none :=
          (alGet?_eq_none_iff rest kv.1).mpr (by simpa [alKeys] using hnd.1)
        have hx := hpt kv.1
        rw [hnone] at hx
        simp only [alGet?, if_pos rfl]
        rw [hx, alGet?_alSet_self, hcur]
        rfl
      · have hne : kv.1 ≠ k := fun he => hk he.symm
        have hx := hpt k
        rw [alGet?_alSet_ne _ _ (fun he => hk he)] at hx
        simp only [alGet?, if_neg hne]
        exact hx

theorem subLoop_ok (subs : List (String × Int × Finset String)) :
    ∀ (occ : List (String × Finset String)) (ts ps : Int) (sl : List (String × Int)),
    (alKeys subs).Nodup → (∀ k ∈ alKeys subs, k ∈ alKeys occ) →
    (∀ k ∈ alKeys subs, k ∉ alKeys sl) →
    ∃ occ', subLoop subs occ ts ps sl =
        Except.ok (ts + (subs.map fun kv => kv.2.1).sum,
          ps + (subs.map fun kv => kv.2.1 - (kv.2.2.card : Int)).sum,
          sl ++ subs.map (fun kv => (kv.1, kv.2.1 - (kv.2.2.card : Int))), occ') ∧
      alKeys occ' = alKeys occ ∧
      ∀ k, alGet? occ' k = (match alGet? subs k with
        | some nv => (alGet? occ k).map (· ∪ nv.2)
        | none => alGet? occ k) := by
  induction subs with
  | nil =>
    intro occ ts ps sl _ _ _
    refine ⟨occ, by simp [subLoop], rfl, fun k => by simp [alGet?]⟩
  | cons kv rest ih =>
    intro occ ts ps sl hnd hsub hdisj
    simp only [alKeys, List.map_cons, List.nodup_cons] at hnd
    rcases alGet?_isSome_of_mem (hsub kv.1 (by simp [alKeys])) with ⟨cur, hcur⟩
    have hsl : alSet sl kv.1 (kv.2.1 - (kv.2.2.card : Int)) =
        sl ++ [(kv.1, kv.2.1 - (kv.2.2.card : Int))] :=
      alSet_of_not_mem _ (hdisj kv.1 (by simp [alKeys]))
    have hkeys1 : alKeys (alSet occ kv.1 (cur ∪ kv.2.2)) = alKeys occ :=
      alKeys_alSet_of_mem _ (mem_alKeys_of_isSome hcur)
    have hsub' : ∀ k ∈ alKeys rest, k ∈ alKeys (alSet occ kv.1 (cur ∪ kv.2.2)) := by
      intro k hk
      rw [hkeys1]
      exact hsub k (by simp [alKeys]; exact Or.inr (by simpa [alKeys] using hk))
    have hdisj' : ∀ k ∈ alKeys rest,
        k ∉ alKeys (sl ++ [(kv.1, kv.2.1 - (kv.2.2.card : Int))]) := by
      intro k hk hmem
      have hkk : k ≠ kv.1 := by
        intro he
        exact hnd.1 (he ▸ (by simpa [alKeys] using hk))
      simp only [alKeys, List.map_append, List.mem_append, List.map_cons] at hmem
      rcases hmem with hmem | hmem
      · exact hdisj k (by simp [alKeys]; exact Or.inr (by simpa [alKeys] using hk)) hmem
      · simp at hmem
        exact hkk hmem
    rcases ih (alSet occ kv.1 (cur ∪ kv.2.2)) (ts + kv.2.1)
      (ps + (kv.2.1 - (kv.2.2.card : Int)))
      (sl ++ [(kv.1, kv.2.1 - (kv.2.2.card : Int))]) hnd.2 hsub' hdisj' with
      ⟨occ', hrun, hkeys, hpt⟩
    refine ⟨occ', ?_, hkeys.trans hkeys1, ?_⟩
    · simp only [subLoop, hcur, hsl, hrun, List.map_cons, List.sum_cons]
      rw [← add_assoc, ← add_assoc, List.append_assoc]
      rfl
    · intro k
      by_cases hk : k = kv.1
      · subst hk
        have hnone : alGet? rest kv.1 = none :=
          (alGet?_eq_none_iff rest kv.1).mpr (by simpa [alKeys] using hnd.1)
        have hx := hpt kv.1
        rw [hnone] at hx
        simp only [alGet?, if_pos rfl]
        rw [hx, alGet?_alSet_self, hcur]
        rfl
      · have hne : kv.1 ≠ k := fun he => hk he.symm
        have hx := hpt k
        rw [alGet?_alSet_ne _ _ (fun he => hk he)] at hx
        simp only [alGet?, if_neg hne]
        exact hx

theorem capLoop_ok (occ : List (String × Finset String)) :
    ∀ (cc : List (String × Int)) (err : Int) (ws : Bool) (subs : List (String × Int)),
    (alKeys occ).Nodup → (alKeys cc).Nodup →
    (∀ k ∈ alKeys occ, k ∈ alKeys cc) →
    ((ws = true ∧ subs ≠ []) → ∀ k ∈ alKeys occ, k ∈ alKeys subs) →
    capLoop occ cc err ws subs = Except.ok (cc.map fun kv =>
      if kv.1 ∈ alKeys occ then
        (kv.1, kv.2 + err - (((alGet? occ kv.1).getD ∅).card : Int) -
          (if ws = true ∧ subs ≠ [] then (alGet? subs kv.1).getD 0 else 0))
      else kv) := by
  induction occ with
  | nil =>
    intro cc err ws subs _ _ _ _
    simp [capLoop, alKeys]
  | cons kv rest ih =>
    intro cc err ws subs hndocc hndcc hsub hsub2
    simp only [alKeys, List.map_cons, List.nodup_cons] at hndocc
    rcases alGet?_isSome_of_mem (hsub kv.1 (by simp [alKeys])) with ⟨cap0, hcap0⟩
    have hv : ∀ v : Int, alSet cc kv.1 v =
        cc.map fun e => if e.1 = kv.1 then (kv.1, v) else e := fun v =>
      alSet_eq_map v hndcc (mem_alKeys_of_isSome hcap0)
    have hccnd : ∀ v : Int, (alKeys (alSet cc kv.1 v)).Nodup := fun v => by
      rw [alKeys_alSet_of_mem v (mem_alKeys_of_isSome hcap0)]
      exact hndcc
    have hsubv : ∀ v : Int, ∀ k ∈ alKeys rest, k ∈ alKeys (alSet cc kv.1 v) := fun v k hk => by
      rw [alKeys_alSet_of_mem v (mem_alKeys_of_isSome hcap0)]
      exact hsub k (by simp [alKeys]; exact Or.inr (by simpa [alKeys] using hk))
    have hsub2v : (ws = true ∧ subs ≠ []) → ∀ k ∈ alKeys rest, k ∈ alKeys subs :=
      fun hws k hk =>
        hsub2 hws k (by simp [alKeys]; exact Or.inr (by simpa [alKeys] using hk))
    have main : ∀ v : Int,
        v = cap0 + err - (kv.2.card : Int) -
          (if ws = true ∧ subs ≠ [] then (alGet? subs kv.1).getD 0 else 0) →
        capLoop rest (alSet cc kv.1 v) err ws subs = Except.ok (cc.map fun e =>
          if e.1 ∈ alKeys (kv :: rest) then
            (e.1, e.2 + err - (((alGet? (kv :: rest) e.1).getD ∅).card : Int) -
              (if ws = true ∧ subs ≠ [] then (alGet? subs e.1).getD 0 else 0))
          else e) := by
      intro v hvdef
      rw [ih (alSet cc kv.1 v) err ws subs hndocc.2 (hccnd v) (hsubv v) hsub2v]
      rw [hv v, List.map_map]
      congr 1
      apply List.map_congr_left
      intro e he
      simp only [Function.comp_apply]
      by_cases hek : e.1 = kv.1
      · have hnr : kv.1 ∉ alKeys rest := by simpa [alKeys] using hndocc.1
        have he2 : e.2 = cap0 := by
          have hx := alGet?_of_mem_nodup hndcc (hek ▸ he : (kv.1, e.2) ∈ cc)
          rw [hcap0] at hx
          exact (Option.some_injective _ hx).symm
        have hocck : alGet? (kv :: rest) kv.1 = some kv.2 := by
          simp [alGet?]
        have hmemek : e.1 ∈ alKeys (kv :: rest) := by rw [hek]; simp [alKeys]
        rw [if_pos hek]
        dsimp only
        rw [if_neg hnr, if_pos hmemek, hek, hocck]
        simp only [Option.getD_some]
        rw [hvdef, he2]
      · rw [if_neg hek]
        have hne2 : ¬ (kv.1 = e.1) := fun he2 => hek he2.symm
        have hmem : e.1 ∈ alKeys rest ↔ e.1 ∈ alKeys (kv :: rest) := by
          simp only [alKeys, List.map_cons, List.mem_cons]
          exact ⟨Or.inr, fun h => h.resolve_left hek⟩
        have hget : alGet? (kv :: rest) e.1 = alGet? rest e.1 := by
          simp [alGet?, hne2]
        by_cases hm : e.1 ∈ alKeys rest
        · rw [if_pos hm, if_pos (hmem.mp hm), hget]
        · rw [if_neg hm, if_neg (fun hx => hm (hmem.mpr hx))]
    by_cases hws : ws = true ∧ subs ≠ []
    · rcases alGet?_isSome_of_mem (hsub2 hws kv.1 (by simp [alKeys])) with ⟨s0, hs0⟩
      simp only [capLoop, hcap0, if_pos hws, hs0]
      rw [main (cap0 + err - (kv.2.card : Int) - s0) (by rw [hs0]; simp [hws])]
      simp [hws]
    · simp only [capLoop, hcap0, if_neg hws]
      rw [main (cap0 + err - (kv.2.card : Int)) (by simp [hws])]
      simp [hws]

/-- Claim C5: with per-class capacities configured (and the class keys of the
involved mappings agreeing, as initialization and the validators establish),
`get_free_places` computes, for each class, `capacity[class] + uncertainty
draw − |occupancy view| − unfilled subscription slots`, and returns the
single class's value when a configured class is requested and the full
per-class mapping otherwise. -/
theorem free_places_by_class_formula (m : Monitor) (parking : String) (p : Parking)
    (wu : Bool) (draw : Int) (vclass : Option String) (wp ws : Bool)
    (h : alGet? m.parking_db parking = some p)
    (hcap : p.capacity_by_class ≠ [])
    (hnd_cap : (alKeys p.capacity_by_class).Nodup)
    (hnd_occ : (alKeys p.occupancy_by_class).Nodup)
    (hocc : alKeysFinset p.occupancy_by_class = alKeysFinset p.capacity_by_class)
    (hproj : wp = true → (alKeys p.projections_by_class).Nodup ∧
      alKeysFinset p.projections_by_class = alKeysFinset p.occupancy_by_class)
    (hsubs : ws = true → (alKeys p.subscriptions_by_class).Nodup ∧
      alKeysFinset p.subscriptions_by_class = alKeysFinset p.occupancy_by_class) :
    get_free_places m parking wu draw vclass wp ws =
      Except.ok (freePlacesSpecByClass p (if wu then draw else 0) vclass wp ws) := by
  have hoccm : ∀ k, k ∈ alKeys p.occupancy_by_class ↔ k ∈ alKeys p.capacity_by_class := by
    intro k
    rw [← mem_alKeysFinset, ← mem_alKeysFinset, hocc]
  have step1 : ∃ tp occ1,
      (if wp then projLoop p.projections_by_class p.occupancy_by_class 0
       else Except.ok (0, p.occupancy_by_class)) = Except.ok (tp, occ1) ∧
      alKeys occ1 = alKeys p.occupancy_by_class ∧
      ∀ k ∈ alKeys p.occupancy_by_class, alGet? occ1 k =
        some (((alGet? p.occupancy_by_class k).getD ∅) ∪
          (if wp then (alGet? p.projections_by_class k).getD ∅ else ∅)) := by
    cases wp with
    | false =>
      refine ⟨0, p.occupancy_by_class, by simp, rfl, ?_⟩
      intro k hk
      rcases alGet?_isSome_of_mem hk with ⟨v, hv⟩
      simp [hv]
    | true =>
      have hp := hproj rfl
      have hprojm : ∀ k, k ∈ alKeys p.projections_by_class ↔
          k ∈ alKeys p.occupancy_by_class := by
        intro k
        rw [← mem_alKeysFinset, ← mem_alKeysFinset, hp.2]
      rcases projLoop_ok p.projections_by_class p.occupancy_by_class 0 hp.1
        (fun k hk => (hprojm k).mp hk) with ⟨occ1, hrun, hkeys, hpt⟩
      refine ⟨(p.projections_by_class.map fun kv => (kv.2.card : Int)).sum, occ1,
        by simpa using hrun, hkeys, ?_⟩
      intro k hk
      rcases alGet?_isSome_of_mem ((hprojm k).mpr hk) with ⟨vs, hvs⟩
      rcases alGet?_isSome_of_mem hk with ⟨base, hbase⟩
      rw [hpt k, hvs, hbase]
      simp [hvs]
  obtain ⟨tp, occ1, hrun1, hkeys1, hpt1⟩ := step1
  have hnd1 : (alKeys occ1).Nodup := by rw [hkeys1]; exact hnd_occ
  have step2 : ∃ tsub psub sl occ2,
      (if ws then subLoop p.subscriptions_by_class occ1 0 0 []
       else Except.ok (0, 0, [], occ1)) = Except.ok (tsub, psub, sl, occ2) ∧
      (sl = if ws then p.subscriptions_by_class.map
          (fun kv => (kv.1, kv.2.1 - (kv.2.2.card : Int))) else []) ∧
      alKeys occ2 = alKeys occ1 ∧
      ∀ k ∈ alKeys occ1, alGet? occ2 k =
        some (((alGet? occ1 k).getD ∅) ∪
          (if ws then ((alGet? p.subscriptions_by_class k).map fun s => s.2).getD ∅
           else ∅)) := by
    cases ws with
    | false =>
      refine ⟨0, 0, [], occ1, by simp, by simp, rfl, ?_⟩
      intro k hk
      rcases alGet?_isSome_of_mem hk with ⟨v, hv⟩
      simp [hv]
    | true =>
      have hs := hsubs rfl
      have hsubsm : ∀ k, k ∈ alKeys p.subscriptions_by_class ↔
          k ∈ alKeys p.occupancy_by_class := by
        intro k
        rw [← mem_alKeysFinset, ← mem_alKeysFinset, hs.2]
      rcases subLoop_ok p.subscriptions_by_class occ1 0 0 [] hs.1
        (fun k hk => by rw [hkeys1]; exact (hsubsm k).mp hk)
        (fun k _ hk => by simp [alKeys] at hk) with ⟨occ2, hrun, hkeys, hpt⟩
      refine ⟨(p.subscriptions_by_class.map fun kv => kv.2.1).sum,
        (p.subscriptions_by_class.map fun kv => kv.2.1 - (kv.2.2.card : Int)).sum,
        p.subscriptions_by_class.map (fun kv => (kv.1, kv.2.1 - (kv.2.2.card : Int))),
        occ2, by simpa using hrun, by simp, hkeys, ?_⟩
      intro k hk
      have hks : k ∈ alKeys p.subscriptions_by_class :=
        (hsubsm k).mpr (by rw [← hkeys1]; exact hk)
      rcases alGet?_isSome_of_mem hks with ⟨nv, hnv⟩
      rcases alGet?_isSome_of_mem hk with ⟨base, hbase⟩
      rw [hpt k, hnv, hbase]
      simp [hnv]
  obtain ⟨tsub, psub, sl, occ2, hrun2, hsl, hkeys2, hpt2⟩ := step2
  have hnd2 : (alKeys occ2).Nodup := by rw [hkeys2]; exact hnd1
  have hview : ∀ k, k ∈ alKeys p.occupancy_by_class →
      (alGet? occ2 k).getD ∅ = occViewSpec p wp ws k := by
    intro k hk
    have hk1 : k ∈ alKeys occ1 := by rw [hkeys1]; exact hk
    rw [hpt2 k hk1, hpt1 k hk]
    simp [occViewSpec]
  have hslkeys : ws = true → alKeys sl = alKeys p.subscriptions_by_class := by
    intro hws
    rw [hsl, if_pos hws]
    simpa using alKeys_map_entry (fun _ v => v.1 - (v.2.card : Int))
      p.subscriptions_by_class
  have hslget : ws = true → ∀ k, alGet? sl k =
      (alGet? p.subscriptions_by_class k).map fun s => s.1 - (s.2.card : Int) := by
    intro hws k
    rw [hsl, if_pos hws]
    simpa using alGet?_map_entry (fun _ v => v.1 - (v.2.card : Int))
      p.subscriptions_by_class k
  have hadj : ∀ k, k ∈ alKeys p.capacity_by_class →
      (if ws = true ∧ sl ≠ [] then (alGet? sl k).getD 0 else 0) =
        unfilledSlotsSpec p ws k := by
    intro k hk
    cases ws with
    | false =>
      simp [unfilledSlotsSpec]
    | true =>
      have hs := hsubs rfl
      have hsubsm : ∀ k', k' ∈ alKeys p.subscriptions_by_class ↔
          k' ∈ alKeys p.occupancy_by_class := by
        intro k'
        rw [← mem_alKeysFinset, ← mem_alKeysFinset, hs.2]
      have hks : k ∈ alKeys p.subscriptions_by_class :=
        (hsubsm k).mpr ((hoccm k).mpr hk)
      have hslne : sl ≠ [] := by
        intro he
        rw [he] at hslkeys
        have := hslkeys rfl
        rw [← this] at hks
        simp [alKeys] at hks
      rw [if_pos ⟨rfl, hslne⟩, hslget rfl k]
      rcases alGet?_isSome_of_mem hks with ⟨nv, hnv⟩
      simp [hnv, unfilledSlotsSpec]
  unfold get_free_places
  rw [h]
  simp only [hrun1, hrun2, if_pos hcap]
  have hsubcap : ∀ k ∈ alKeys occ2, k ∈ alKeys p.capacity_by_class := by
    intro k hk
    rw [hkeys2, hkeys1] at hk
    exact (hoccm k).mp hk
  have hslcond : (ws = true ∧ sl ≠ []) → ∀ k ∈ alKeys occ2, k ∈ alKeys sl := by
    intro hws k hk
    rw [hslkeys hws.1]
    rw [hkeys2, hkeys1] at hk
    have hs := hsubs hws.1
    have hsubsm : k ∈ alKeys p.subscriptions_by_class ↔
        k ∈ alKeys p.occupancy_by_class := by
      rw [← mem_alKeysFinset, ← mem_alKeysFinset, hs.2]
    exact hsubsm.mpr hk
  rw [capLoop_ok occ2 p.capacity_by_class (if wu then draw else 0) ws sl hnd2 hnd_cap
    hsubcap hslcond]
  have hM : (p.capacity_by_class.map fun kv =>
      if kv.1 ∈ alKeys occ2 then
        (kv.1, kv.2 + (if wu then draw else 0) -
          (((alGet? occ2 kv.1).getD ∅).card : Int) -
          (if ws = true ∧ sl ≠ [] then (alGet? sl kv.1).getD 0 else 0))
      else kv) =
      p.capacity_by_class.map (fun kv =>
        (kv.1, kv.2 + (if wu then draw else 0) -
          ((occViewSpec p wp ws kv.1).card : Int) - unfilledSlotsSpec p ws kv.1)) := by
    apply List.map_congr_left
    intro e he
    have hek : e.1 ∈ alKeys p.capacity_by_class := List.mem_map_of_mem Prod.fst he
    have hmem : e.1 ∈ alKeys occ2 := by
      rw [hkeys2, hkeys1]
      exact (hoccm e.1).mpr hek
    rw [if_pos hmem, hview e.1 ((hoccm e.1).mpr hek), hadj e.1 hek]
  rw [hM]
  simp only [freePlacesSpecByClass]
  cases vclass with
  | none => rfl
  | some c =>
    cases hq : alGet? (p.capacity_by_class.map fun kv =>
        (kv.1, kv.2 + (if wu then draw else 0) -
          ((occViewSpec p wp ws kv.1).card : Int) - unfilledSlotsSpec p ws kv.1)) c with
    | none => simp [hq]
    | some v => simp [hq]

/-- The reservation set `{"v1", "v2"}`. -/
def vTwo : Finset String := {"v1", "v2"}

/-- The facility of the specification's per-class example:
`capacity_by_class = {car: 8, truck: 2}`, cars `{v1, v2}` parked, no trucks. -/
def parkCarTruck : Parking :=
  { basePark with
    total_capacity := 10
    total_occupancy := 2
    capacity_by_class := [("car", 8), ("truck", 2)]
    occupancy_by_class := [("car", vTwo), ("truck", ∅)]
    projections_by_class := [("car", ∅), ("truck", ∅)] }

/-- A monitor with classes `{car, truck}` holding `parkCarTruck`. -/
def monitorCarTruck : Monitor :=
  { baseMonitor with parking_db := [("p1", parkCarTruck)], vclasses := carTruck }

/-- Claim C5 (witness): the spec's example — `capacity_by_class =
{car: 8, truck: 2}`, cars `{v1, v2}` parked, query class `car`, no extras —
yields 6. -/
theorem free_places_by_class_formula_witness :
    alGet? monitorCarTruck.parking_db "p1" = some parkCarTruck ∧
    parkCarTruck.capacity_by_class ≠ [] ∧
    get_free_places monitorCarTruck "p1" false 0 (some "car") false false =
      Except.ok (FreePlacesResult.single 6) := by
  refine ⟨rfl, by decide, ?_⟩
  have h := free_places_by_class_formula monitorCarTruck "p1" parkCarTruck false 0
    (some "car") false false rfl (by decide) (by decide) (by decide) (by decide)
    (by decide) (by decide)
  exact h.trans (by decide)

theorem validate_occupancy_loop_ok (cap : List (String × Int)) :
    ∀ (l : List (String × Finset String)) (t total : Int),
    validate_occupancy_loop cap l t = Except.ok total →
    total = t + (l.map fun kv => (kv.2.card : Int)).sum := by
  intro l
  induction l with
  | nil =>
    intro t total hrun
    simp only [validate_occupancy_loop] at hrun
    cases hrun
    simp
  | cons kv rest ih =>
    intro t total hrun
    simp only [validate_occupancy_loop] at hrun
    by_cases hc : cap ≠ []
    · rw [if_pos hc] at hrun
      cases hg : alGet? cap kv.1 with
      | none =>
        simp only [hg] at hrun
        exact Except.noConfusion hrun
      | some c =>
        simp only [hg] at hrun
        by_cases hgt : (kv.2.card : Int) > c
        · rw [if_pos hgt] at hrun
          exact Except.noConfusion hrun
        · rw [if_neg hgt] at hrun
          have := ih _ _ hrun
          rw [this]
          simp only [List.map_cons, List.sum_cons]
          ring
    · rw [if_neg hc] at hrun
      have := ih _ _ hrun
      rw [this]
      simp only [List.map_cons, List.sum_cons]
      ring

theorem validate_parking_occupancy_ok (m : Monitor) (pid : String)
    (h : validate_parking_occupancy m pid = Except.ok ()) :
    ∃ p, alGet? m.parking_db pid = some p ∧
      alKeysFinset p.occupancy_by_class = m.vclasses ∧
      occSum p = p.total_occupancy := by
  unfold validate_parking_occupancy at h
  cases hg : alGet? m.parking_db pid with
  | none =>
    simp only [hg] at h
    exact Except.noConfusion h
  | some p =>
    simp only [hg] at h
    by_cases hk : alKeysFinset p.occupancy_by_class ≠ m.vclasses
    · rw [if_pos hk] at h
      exact Except.noConfusion h
    · rw [if_neg hk] at h
      cases hrun : validate_occupancy_loop p.capacity_by_class p.occupancy_by_class 0 with
      | error e =>
        simp only [hrun] at h
        exact Except.noConfusion h
      | ok total =>
        simp only [hrun] at h
        by_cases ht : total ≠ p.total_occupancy
        · rw [if_pos ht] at h
          exact Except.noConfusion h
        · rw [if_neg ht] at h
          push_neg at hk ht
          have hsum := validate_occupancy_loop_ok p.capacity_by_class
            p.occupancy_by_class 0 total hrun
          refine ⟨p, rfl, hk, ?_⟩
          unfold occSum
          omega

theorem validateAll_ok (m : Monitor) :
    ∀ l, validateAll m l = Except.ok () →
      ∀ pid ∈ l, validate_parking_occupancy m pid = Except.ok () := by
  intro l
  induction l with
  | nil => intro _ pid hmem; simp at hmem
  | cons q rest ih =>
    intro hrun pid hmem
    simp only [validateAll] at hrun
    cases hq : validate_parking_occupancy m q with
    | error e =>
      simp only [hq] at hrun
      exact Except.noConfusion hrun
    | ok u =>
      simp only [hq] at hrun
      rcases List.mem_cons.mp hmem with he | he
      · subst he
        cases u
        exact hq
      · exact ih hrun pid he

theorem capView_setParking (m : Monitor) (pid0 : String) (p0 p' : Parking)
    (h0 : alGet? m.parking_db pid0 = some p0)
    (hc : p'.capacity_by_class = p0.capacity_by_class)
    (ht : p'.total_capacity = p0.total_capacity) :
    ∀ pid, capView (setParking m pid0 p') pid = capView m pid := by
  intro pid
  by_cases he : pid = pid0
  · subst he
    unfold capView setParking
    rw [alGet?_alSet_self, h0]
    simp [hc, ht]
  · unfold capView setParking
    rw [alGet?_alSet_ne _ _ he]

theorem capView_addProjection (m m' : Monitor) (area vclass vehicle : String)
    (h : addProjection m area vclass vehicle = Except.ok m') :
    ∀ pid, capView m' pid = capView m pid := by
  unfold addProjection at h
  cases hg : alGet? m.parking_db area with
  | none => simp only [hg] at h; exact Except.noConfusion h
  | some p =>
    simp only [hg] at h
    cases hg2 : alGet? p.projections_by_class vclass with
    | none => simp only [hg2] at h; exact Except.noConfusion h
    | some s =>
      simp only [hg2] at h
      cases h
      exact capView_setParking m area p _ hg rfl rfl

theorem capView_removeProjection (m m' : Monitor) (area vclass vehicle : String)
    (h : removeProjection m area vclass vehicle = Except.ok m') :
    ∀ pid, capView m' pid = capView m pid := by
  unfold removeProjection at h
  cases hg : alGet? m.parking_db area with
  | none => simp only [hg] at h; exact Except.noConfusion h
  | some p =>
    simp only [hg] at h
    cases hg2 : alGet? p.projections_by_class vclass with
    | none => simp only [hg2] at h; exact Except.noConfusion h
    | some s =>
      simp only [hg2] at h
      by_cases hmem : vehicle ∈ s
      · rw [if_pos hmem] at h
        cases h
        exact capView_setParking m area p _ hg rfl rfl
      · rw [if_neg hmem] at h
        exact Except.noConfusion h

theorem capView_addProjections (areas : List String) :
    ∀ (m m' : Monitor) (vclass vehicle : String),
    addProjections m areas vclass vehicle = Except.ok m' →
    ∀ pid, capView m' pid = capView m pid := by
  induction areas with
  | nil =>
    intro m m' vclass vehicle h pid
    simp only [addProjections] at h
    cases h
    rfl
  | cons a rest ih =>
    intro m m' vclass vehicle h pid
    simp only [addProjections] at h
    cases hstep : addProjection m a vclass vehicle with
    | error e => simp only [hstep] at h; exact Except.noConfusion h
    | ok m1 =>
      simp only [hstep] at h
      rw [ih m1 m' vclass vehicle h pid, capView_addProjection m m1 a vclass vehicle hstep]

theorem capView_removeProjections (areas : List String) :
    ∀ (m m' : Monitor) (vclass vehicle : String),
    removeProjections m areas vclass vehicle = Except.ok m' →
    ∀ pid, capView m' pid = capView m pid := by
  induction areas with
  | nil =>
    intro m m' vclass vehicle h pid
    simp only [removeProjections] at h
    cases h
    rfl
  | cons a rest ih =>
    intro m m' vclass vehicle h pid
    simp only [removeProjections] at h
    cases hstep : removeProjection m a vclass vehicle with
    | error e => simp only [hstep] at h; exact Except.noConfusion h
    | ok m1 =>
      simp only [hstep] at h
      rw [ih m1 m' vclass vehicle h pid, capView_removeProjection m m1 a vclass vehicle hstep]

theorem capView_monitorDeparted (o : Oracle) (step : Rat) (vs : List String) :
    ∀ (m m' : Monitor), monitorDeparted o step vs m = Except.ok m' →
    ∀ pid, capView m' pid = capView m pid := by
  induction vs with
  | nil =>
    intro m m' h pid
    simp only [monitorDeparted] at h
    cases h
    rfl
  | cons v rest ih =>
    intro m m' h pid
    simp only [monitorDeparted] at h
    by_cases h1 : m.only_parkings ∧ (o.vehicleClass v = "bus" ∨ o.vehicleClass v = "rail")
    · rw [if_pos h1] at h
      exact ih m m' h pid
    · rw [if_neg h1] at h
      by_cases h2 : m.only_parkings ∧
          ((o.nextStops v).filter fun s => is_parking_area s.stopFlags) = []
      · rw [if_pos h2] at h
        exact ih m m' h pid
      · rw [if_neg h2] at h
        cases hstep : addProjections
            { m with
              passengers_db := m.passengers_db ∪ (o.personIDList v).toFinset,
              vehicles_db := alSet m.vehicles_db v
                { id := v, departure := step, edge := "",
                  stops := (o.nextStops v).filter fun s => is_parking_area s.stopFlags,
                  history := [], vClass := o.vehicleClass v,
                  passengers := o.personIDList v, arrived := none,
                  final_stop_arrival := none } }
            (((o.nextStops v).filter fun s =>
              is_parking_area s.stopFlags).map Stop.stoppingPlace).dedup
            (o.vehicleClass v) v with
        | error e => simp only [hstep] at h; exact Except.noConfusion h
        | ok m3 =>
          simp only [hstep] at h
          rw [ih m3 m' h pid, capView_addProjections _ _ _ _ _ hstep pid]
          rfl

theorem monitorArrived_parking_db (step : Rat) (vs : List String) :
    ∀ m : Monitor, (monitorArrived step vs m).parking_db = m.parking_db := by
  induction vs with
  | nil => intro m; rfl
  | cons v rest ih =>
    intro m
    simp only [monitorArrived]
    cases alGet? m.vehicles_db v with
    | some veh => rw [ih]
    | none => rw [ih]

theorem capView_monitor_vehicles (o : Oracle) (step : Rat) (m m' : Monitor)
    (h : monitor_vehicles o step m = Except.ok m') :
    ∀ pid, capView m' pid = capView m pid := by
  unfold monitor_vehicles at h
  cases hd : monitorDeparted o step o.departed m with
  | error e => simp only [hd] at h; exact Except.noConfusion h
  | ok m1 =>
    simp only [hd] at h
    cases h
    intro pid
    have harr : capView (monitorArrived step o.arrived m1) pid = capView m1 pid := by
      unfold capView
      rw [monitorArrived_parking_db]
    rw [harr, capView_monitorDeparted o step o.departed m m1 hd pid]

theorem capView_updateVehiclesLoop (step : Rat) (subs : List (String × SubData)) :
    ∀ (m m' : Monitor), updateVehiclesLoop step subs m = Except.ok m' →
    ∀ pid, capView m' pid = capView m pid := by
  induction subs with
  | nil =>
    intro m m' h pid
    simp only [updateVehiclesLoop] at h
    cases h
    rfl
  | cons vd rest ih =>
    intro m m' h pid
    simp only [updateVehiclesLoop] at h
    cases hg : alGet? m.vehicles_db vd.1 with
    | none => simp only [hg] at h; exact Except.noConfusion h
    | some veh =>
      simp only [hg] at h
      by_cases hsame : is_same_destinations veh.stops
          (vd.2.stops.filter fun s => is_parking_area s.stopFlags) = true
      · rw [if_pos hsame] at h
        rw [ih _ m' h pid]
        rfl
      · rw [if_neg hsame] at h
        split at h
        · exact Except.noConfusion h
        · rename_i m2 hrem
          split at h
          · exact Except.noConfusion h
          · rename_i m3 hadd
            rw [ih _ m' h pid]
            have h3 : capView m3 pid = capView m2 pid :=
              capView_addProjections _ _ _ _ _ hadd pid
            have h2 : capView m2 pid = capView m pid :=
              capView_removeProjections _ _ _ _ _ hrem pid
            exact h3.trans h2

theorem capView_check_occupancy (o : Oracle) (step : Rat) (m : Monitor) :
    ∀ pid, capView (check_occupancy o step m) pid = capView m pid := by
  intro pid
  unfold capView check_occupancy
  rw [alGet?_map_entry (check_occupancy_one o step)]
  cases alGet? m.parking_db pid with
  | none => rfl
  | some p =>
    unfold check_occupancy_one
    by_cases hc : p.total_occupancy ≠ o.occupancyOf pid
    · simp [hc]
    · push_neg at hc
      simp [hc]

theorem capView_processEnding (vs : List String) :
    ∀ (m m' : Monitor) (acc acc' : List String),
    processEnding vs m acc = Except.ok (m', acc') →
    ∀ pid, capView m' pid = capView m pid := by
  induction vs with
  | nil =>
    intro m m' acc acc' h pid
    simp only [processEnding] at h
    cases h
    rfl
  | cons v rest ih =>
    intro m m' acc acc' h pid
    simp only [processEnding] at h
    cases hpa : get_parking_area_from_vehicle m v with
    | error e => simp only [hpa] at h; exact Except.noConfusion h
    | ok oarea =>
      simp only [hpa] at h
      cases oarea with
      | none => exact ih _ _ _ _ h pid
      | some area =>
        cases hp : alGet? m.parking_db area with
        | none => simp only [hp] at h; exact ih _ _ _ _ h pid
        | some p =>
          simp only [hp] at h
          cases hveh : alGet? m.vehicles_db v with
          | none => simp only [hveh] at h; exact Except.noConfusion h
          | some veh =>
            simp only [hveh] at h
            cases hocc : alGet? p.occupancy_by_class veh.vClass with
            | none => simp only [hocc] at h; exact Except.noConfusion h
            | some s =>
              simp only [hocc] at h
              by_cases hmem : v ∈ s
              · rw [if_pos hmem] at h
                rw [ih _ _ _ _ h pid]
                exact capView_setParking m area p
                  ({ p with occupancy_by_class := alSet p.occupancy_by_class veh.vClass (s.erase v) })
                  hp rfl rfl pid
              · rw [if_neg hmem] at h
                exact Except.noConfusion h

theorem capView_processStarting (vs : List String) :
    ∀ (m m' : Monitor) (acc acc' : List String),
    processStarting vs m acc = Except.ok (m', acc') →
    ∀ pid, capView m' pid = capView m pid := by
  induction vs with
  | nil =>
    intro m m' acc acc' h pid
    simp only [processStarting] at h
    cases h
    rfl
  | cons v rest ih =>
    intro m m' acc acc' h pid
    simp only [processStarting] at h
    cases hpa : get_parking_area_from_vehicle m v with
    | error e => simp only [hpa] at h; exact Except.noConfusion h
    | ok oarea =>
      simp only [hpa] at h
      cases oarea with
      | none => exact ih _ _ _ _ h pid
      | some area =>
        cases hp : alGet? m.parking_db area with
        | none => simp only [hp] at h; exact ih _ _ _ _ h pid
        | some p =>
          simp only [hp] at h
          cases hveh : alGet? m.vehicles_db v with
          | none => simp only [hveh] at h; exact Except.noConfusion h
          | some veh =>
            simp only [hveh] at h
            cases hocc : alGet? p.occupancy_by_class veh.vClass with
            | none => simp only [hocc] at h; exact Except.noConfusion h
            | some s =>
              simp only [hocc] at h
              rw [ih _ _ _ _ h pid]
              exact capView_setParking m area p
                ({ p with occupancy_by_class := alSet p.occupancy_by_class veh.vClass (insert v s) })
                hp rfl rfl pid

theorem capView_update_parking_db_aux (o : Oracle) (step : Rat) (m m' : Monitor)
    (val : List String) (h : update_parking_db_aux o step m = Except.ok (m', val)) :
    ∀ pid, capView m' pid = capView m pid := by
  simp only [update_parking_db_aux] at h
  split at h
  · exact Except.noConfusion h
  · rename_i m1 val1 hend
    split at h
    · exact Except.noConfusion h
    · rename_i m3 val2 hstart
      split at h
      · exact Except.noConfusion h
      · rename_i u hval
        cases h
        intro pid
        have h3 := capView_processStarting o.startingList _ _ _ _ hstart pid
        have h1 := capView_processEnding (check_occupancy o step m).ending_stop_subscriptions
          _ _ _ _ hend pid
        have h0 := capView_check_occupancy o step m pid
        rw [h3]
        exact h1.trans h0

theorem capView_pypml_step (o : Oracle) (m m' : Monitor)
    (h : pypml_step o m = Except.ok m') :
    ∀ pid, capView m' pid = capView m pid := by
  unfold pypml_step at h
  cases hmv : monitor_vehicles o o.time m with
  | error e => simp only [hmv] at h; exact Except.noConfusion h
  | ok m1 =>
    simp only [hmv] at h
    cases hud : update_vehicles_db o o.time m1 with
    | error e => simp only [hud] at h; exact Except.noConfusion h
    | ok m2 =>
      simp only [hud] at h
      unfold update_parking_db at h
      cases haux : update_parking_db_aux o o.time m2 with
      | error e => simp only [haux] at h; exact Except.noConfusion h
      | ok ms =>
        simp only [haux] at h
        cases h
        intro pid
        have ha := capView_update_parking_db_aux o o.time m2 ms.1 ms.2 (by rw [haux]) pid
        have hb := capView_updateVehiclesLoop o.time o.vehSubs m1 m2 hud pid
        have hc := capView_monitor_vehicles o o.time m m1 hmv pid
        rw [ha, hb, hc]

/-- Claim C1 (amended): after every completed simulation step, every facility
in the step's validated set (the areas touched by the ending- or
starting-stop reconciliation) has an occupancy-by-class key set equal to the
configured class set and per-class sizes summing to `total_occupancy`; and a
step never modifies any facility's `capacity_by_class` or `total_capacity`,
so the capacity-sum equality holds after the step exactly where it held
before. -/
theorem step_validated_areas_satisfy_occupancy_invariant (o : Oracle) (m m' : Monitor)
    (h : pypml_step o m = Except.ok m') :
    (∀ pid ∈ stepValidated o m, ∃ p, alGet? m'.parking_db pid = some p ∧
      alKeysFinset p.occupancy_by_class = m'.vclasses ∧
      occSum p = p.total_occupancy) ∧
    (∀ pid p, alGet? m.parking_db pid = some p →
      ∃ p', alGet? m'.parking_db pid = some p' ∧
        p'.capacity_by_class = p.capacity_by_class ∧
        p'.total_capacity = p.total_capacity) := by
  have hfr := capView_pypml_step o m m' h
  have hpart2 : ∀ pid p, alGet? m.parking_db pid = some p →
      ∃ p', alGet? m'.parking_db pid = some p' ∧
        p'.capacity_by_class = p.capacity_by_class ∧
        p'.total_capacity = p.total_capacity := by
    intro pid p hp
    have hfp := hfr pid
    unfold capView at hfp
    rw [hp] at hfp
    cases hm2 : alGet? m'.parking_db pid with
    | none =>
      rw [hm2] at hfp
      exact Option.noConfusion hfp
    | some p' =>
      rw [hm2] at hfp
      simp only [Option.map_some', Option.some.injEq, Prod.mk.injEq] at hfp
      exact ⟨p', rfl, hfp.1, hfp.2⟩
  unfold pypml_step at h
  cases hmv : monitor_vehicles o o.time m with
  | error e => simp only [hmv] at h; exact Except.noConfusion h
  | ok m1 =>
    simp only [hmv] at h
    cases hud : update_vehicles_db o o.time m1 with
    | error e => simp only [hud] at h; exact Except.noConfusion h
    | ok m2 =>
      simp only [hud] at h
      unfold update_parking_db at h
      cases haux : update_parking_db_aux o o.time m2 with
      | error e => simp only [haux] at h; exact Except.noConfusion h
      | ok ms =>
        simp only [haux] at h
        cases h
        have hsv : stepValidated o m = ms.2 := by
          unfold stepValidated
          simp only [hmv, hud, haux]
        have haux2 := haux
        simp only [update_parking_db_aux] at haux2
        split at haux2
        · exact Except.noConfusion haux2
        · rename_i m1' val1 hend
          split at haux2
          · exact Except.noConfusion haux2
          · rename_i m3 val2 hstart
            split at haux2
            · exact Except.noConfusion haux2
            · rename_i u hval
              cases u
              cases haux2
              refine ⟨?_, hpart2⟩
              intro pid hpid
              rw [hsv] at hpid
              exact validate_parking_occupancy_ok m3 pid
                (validateAll_ok m3 val2 hval pid hpid)

/-- Claim C1 (counterexample): a step in which the oracle's occupancy counter
for `p1` drifts to 5 while no parking-stop event mentions `p1` completes
without raising, yet afterwards the per-class occupancy sets sum to 0 while
`total_occupancy` is 5 — the invariant does not hold for facilities outside
the step's validated set. -/
theorem step_completes_with_unvalidated_occupancy_drift :
    (pypml_step oracleDrift baseMonitor).map (fun m' =>
      (alGet? m'.parking_db "p1").map fun p => (occSum p, p.total_occupancy)) =
      Except.ok (some ((0 : Int), (5 : Int))) ∧ (0 : Int) ≠ 5 := by
  exact ⟨by decide, by decide⟩

/-- Claim C1 (witness): a quiet step (no events, oracle counter agreeing with
the stored state) completes and leaves `baseMonitor` unchanged. -/
theorem step_validated_areas_witness :
    pypml_step oracleQuiet baseMonitor = Except.ok baseMonitor ∧
    (∀ pid ∈ stepValidated oracleQuiet baseMonitor,
      ∃ p, alGet? baseMonitor.parking_db pid = some p ∧
        alKeysFinset p.occupancy_by_class = baseMonitor.vclasses ∧
        occSum p = p.total_occupancy) ∧
    (∀ pid p, alGet? baseMonitor.parking_db pid = some p →
      ∃ p', alGet? baseMonitor.parking_db pid = some p' ∧
        p'.capacity_by_class = p.capacity_by_class ∧
        p'.total_capacity = p.total_capacity) := by
  refine ⟨by decide, ?_⟩
  exact step_validated_areas_satisfy_occupancy_invariant oracleQuiet baseMonitor
    baseMonitor (by decide)

/-- Claim C8 (witness): looking up the registered facility `p1` returns its
snapshot. -/
theorem get_parking_total_lookup_witness :
    alGet? baseMonitor.parking_db "p1" = some basePark ∧
    get_parking baseMonitor "p1" = Except.ok (some basePark) := by
  refine ⟨rfl, ?_⟩
  exact (get_parking_total_lookup baseMonitor "p1").2.1 basePark rfl
